import Mathlib

/-!
# kamoaze20 marketplace script (src/main.js): a shallow embedding

The page script keeps its state in module-level variables and reacts to UI
events.  The embedding makes that state an explicit record, turns each handler
into a function on it, and records every externally visible action (alerts,
notices, wallet, SDK, chain and backend calls) in an append-only effect log.
Results of external calls are supplied by environment records.
-/

namespace Kamoaze

/-! ## JavaScript string helpers -/

/-- Number of UTF-16 code units of one character (what JS `length` counts). -/
def utf16Units (c : Char) : Nat := if c.val.toNat < 65536 then 1 else 2

/-- JS `s.length`: the number of UTF-16 code units. -/
def jsLength (s : String) : Nat := (s.data.map utf16Units).sum

/-- JS `s.startsWith(p)`. -/
def startsWith (s p : String) : Bool := p.data.isPrefixOf s.data

/-- Replace the first occurrence of `pat` by `rep` in a character list. -/
def replaceFirst (pat rep : List Char) : List Char → List Char
  | [] => if pat = [] then rep else []
  | c :: cs =>
    if pat.isPrefixOf (c :: cs) then rep ++ (c :: cs).drop pat.length
    else c :: replaceFirst pat rep cs

/-- JS `s.replace(pat, rep)` for a string pattern: only the first occurrence
is replaced (the replacement used by the script contains no `$` pattern). -/
def jsReplace (s pat rep : String) : String := ⟨replaceFirst pat.data rep.data s.data⟩

/-- JS `s.toLowerCase()`, on the ASCII range (addresses are hexadecimal). -/
def toLowerCase (s : String) : String := ⟨s.data.map Char.toLower⟩

/-! ## Link resolver (main.js 63-70) -/

/-- The image shown when an entry has no image reference. -/
def NO_IMAGE : String := "https://via.placeholder.com/300?text=No+Image"

/-- The gateway that serves content-addressed links. -/
def GATEWAY : String := "https://cloudflare-ipfs.com/ipfs/"

/-- The function `resolveIPFS(url)`; `none` is an absent (`undefined`/`null`)
url, and the empty string is falsy as well. -/
def resolveIPFS (url : Option String) : String :=
  match url with
  | none => NO_IMAGE
  | some u =>
    if u = "" then NO_IMAGE
    else if startsWith u "ipfs://" then jsReplace u "ipfs://" GATEWAY
    else if startsWith u "Qm" && decide (jsLength u ≥ 46) then GATEWAY ++ u
    else u

/-! ## JavaScript values (stored orders arrive as JSON) -/

/-- A JSON-shaped JavaScript value.  Numbers carry an integer: the script only
tests numbers for truthiness. -/
inductive JsVal where
  | undefined
  | null
  | bool (b : Bool)
  | num (n : Int)
  | str (s : String)
  | arr (items : List JsVal)
  | obj (fields : List (String × JsVal))

/-- JS truthiness. -/
def JsVal.truthy : JsVal → Bool
  | .undefined => false
  | .null => false
  | .bool b => b
  | .num n => n != 0
  | .str s => s != ""
  | .arr _ => true
  | .obj _ => true

/-- The test `v == null`, true of `null` and `undefined` (what `??` checks). -/
def JsVal.isNullish : JsVal → Bool
  | .undefined => true
  | .null => true
  | _ => false

/-- Property read `v.key` for a key no prototype defines (`order`,
`parameters`): an own field of an object, `undefined` otherwise. -/
def JsVal.get (v : JsVal) (key : String) : JsVal :=
  match v with
  | .obj fields => (fields.lookup key).getD .undefined
  | _ => .undefined

/-- The object has an own field named `key`. -/
def JsVal.hasField (v : JsVal) (key : String) : Bool :=
  match v with
  | .obj fields => (fields.lookup key).isSome
  | _ => false

/-- A thrown JS error: `err.reason` (if any) and `err.message`. -/
structure JsError where
  reason : Option String
  message : String

/-- The expression `err.reason || err.message`. -/
def JsError.reasonOrMessage (e : JsError) : String :=
  match e.reason with
  | some r => if r = "" then e.message else r
  | none => e.message

/-! ## Data model -/

/-- The `image` field of a catalog entry: `absent` for a missing or falsy
value that is not a string, `text` for a string, `other` for a truthy value
that is not a string (a number, an object), on which `url.startsWith` is not a
function. -/
inductive ImageRef where
  | absent
  | text (url : String)
  | other

/-- The url that `resolveIPFS` works on, for an image reference it accepts. -/
def ImageRef.toUrl : ImageRef → Option String
  | .text url => some url
  | _ => none

/-- The image reference makes `resolveIPFS` throw (main.js 67, called at 156). -/
def ImageRef.throws : ImageRef → Bool
  | .other => true
  | _ => false

/-- One catalog entry as the backend returns it. -/
structure NFT where
  tokenid : String
  name : Option String
  image : ImageRef
  price : Option String
  seaport_order : JsVal
  seaportOrderJSON : JsVal
  order_hash : Option String

/-- The text of a card's price line.  `fromEntry p` is the text computed at
render time from `nft.price` (`parseFloat(p) + " APE"`, or a dash when `p` is
absent or not numeric); `listed t` is the text written by `listNFT`. -/
inductive PriceText where
  | fromEntry (price : Option String)
  | listed (text : String)

/-- The values that `loadNFTs` interpolates, unescaped, into the card template
(main.js 154-172): the resolved image link, the display name, the entry price
from which the price text is computed, and the token id. -/
structure CardMarkup where
  image : String
  name : String
  price : Option String
  tokenid : String

/-- What the browser makes of a card's markup, as far as the script reads it
back: whether `querySelector` finds the Buy button, the List button, the price
line and the price input, and the `data-token` attribute of the List button. -/
structure ParsedCard where
  buyBtn : Bool
  listBtn : Bool
  dataToken : Option String
  priceLine : Bool
  priceInput : Bool

/-- The browser's HTML parser applied to the card template filled with the
given values (the assignment to `card.innerHTML`, main.js 163-172). -/
def HtmlParser : Type := CardMarkup → ParsedCard

/-- A card element appended to the marketplace (main.js 161-193): the entry it
was built from, the values put into its template, what the browser parsed, the
click handlers that got attached, the text of its price line and the content of
its price input. -/
structure Card where
  nft : NFT
  markup : CardMarkup
  dom : ParsedCard
  buyHandler : Bool
  listHandler : Bool
  price : PriceText
  priceInput : String

/-- A child of the marketplace element. -/
inductive Node where
  | noItems
  | card (c : Card)

/-- The wallet provider object `new Web3Provider(window.ethereum, "any")`. -/
structure Provider where
  network : String

/-- The signing handle `provider.getSigner()`. -/
structure Signer where
  provider : Provider

/-- The order client `new Seaport(signer, overrides)`. -/
structure Seaport where
  signer : Signer
  contractAddress : String

/-- Body of `POST /api/buy`; `price` is the string handed to `parseFloat`
(`none` stands for the number 0). -/
structure BuyBody where
  tokenid : String
  nft_contract : String
  marketplace_contract : String
  buyer_address : String
  order_hash : Option String
  price : Option String
  on_chain : Bool

/-- The order input built by `listNFT` (main.js 296-301). -/
structure OrderInput where
  offerItemType : Nat
  offerToken : String
  offerIdentifier : String
  considerationItemType : Nat
  considerationToken : String
  considerationIdentifier : String
  considerationAmount : String
  considerationRecipient : String
  startTime : String
  endTime : String

/-- Body of `POST /api/order`. -/
structure OrderBody where
  tokenid : String
  price : String
  nft_contract : String
  marketplace_contract : String
  seller_address : String
  seaport_order : JsVal
  order_hash : String
  on_chain : Bool

/-- Externally visible actions, in the order the script performs them. -/
inductive Effect where
  | alert (msg : String)
  | notify (msg : String) (timeout : Nat)
  | consoleError (label : String)
  | requestAccounts
  | addEthereumChain
  | getAddress
  | getNetwork
  | fetchNfts
  | fulfillOrder (order : JsVal) (accountAddress : String)
  | createOrder (input : OrderInput) (accountAddress : String)
  | executeAllActions
  | txWait
  | getOrderHash
  | ownerOf (tokenId : String)
  | isApprovedForAll (owner operator : String)
  | setApprovalForAll (operator : String) (approved : Bool)
  | postBuy (body : BuyBody)
  | postOrder (body : OrderBody)
  | setTimeout (delay : Nat)

/-- Calls into the order-protocol SDK. -/
def Effect.isSdkCall : Effect → Bool
  | .fulfillOrder _ _ => true
  | .createOrder _ _ => true
  | .executeAllActions => true
  | .getOrderHash => true
  | _ => false

/-- Calls that reach the wallet or the chain. -/
def Effect.isChainCall : Effect → Bool
  | .requestAccounts => true
  | .addEthereumChain => true
  | .getAddress => true
  | .getNetwork => true
  | .executeAllActions => true
  | .txWait => true
  | .ownerOf _ => true
  | .isApprovedForAll _ _ => true
  | .setApprovalForAll _ _ => true
  | _ => false

/-- Requests to the backend. -/
def Effect.isBackendCall : Effect → Bool
  | .fetchNfts => true
  | .postBuy _ => true
  | .postOrder _ => true
  | _ => false

/-- The module-level variables of main.js, the parts of the page the script
writes, and the log of effects. -/
structure State where
  provider : Option Provider
  signer : Option Signer
  seaport : Option Seaport
  userAddress : Option String
  loadingNFTs : Bool
  loadedCount : Nat
  allNFTs : List NFT
  connectBtnDisplay : String
  disconnectBtnDisplay : String
  addrSpan : String
  marketplace : List Node
  log : List Effect

/-- The state when the script has just been loaded (main.js 26-29, 127-130). -/
def init : State :=
  { provider := none, signer := none, seaport := none, userAddress := none,
    loadingNFTs := false, loadedCount := 0, allNFTs := [],
    connectBtnDisplay := "", disconnectBtnDisplay := "", addrSpan := "",
    marketplace := [], log := [] }

/-- Append one effect to the log. -/
def State.emit (s : State) (e : Effect) : State := { s with log := s.log ++ [e] }

/-- The function `notify(msg, timeout = 3000)` (main.js 39-47), with the
notice element present. -/
def notify (msg : String) (timeout : Nat) (s : State) : State :=
  s.emit (.notify msg timeout)

/-! ## Feed loader (main.js 127-204) -/

def BACKEND_URL : String := "https://kamoaze60.onrender.com"
def NFT_CONTRACT_ADDRESS : String := "0x54a88333F6e7540eA982261301309048aC431eD5"
def SEAPORT_CONTRACT_ADDRESS : String := "0x0000000000000068F116a894984e2DB1123eB395"
def APECHAIN_ID : Nat := 33139
def ZERO_ADDRESS : String := "0x0000000000000000000000000000000000000000"
def BATCH_SIZE : Nat := 12

/-- JS `xs.slice(a, b)` for non-negative indices. -/
def slice {α : Type} (xs : List α) (a b : Nat) : List α := (xs.drop a).take (b - a)

/-- What `GET /api/nfts` delivers: `failed` when the fetch or the JSON decoding
rejects, otherwise the `nfts` field of the body (`none` when it is missing). -/
inductive FetchResult where
  | failed
  | ok (nfts : Option (List NFT))

/-- The values put into the template for one entry (main.js 154-159), for an
entry whose image reference `resolveIPFS` accepts. -/
def cardMarkup (nft : NFT) : CardMarkup :=
  { image := resolveIPFS nft.image.toUrl
    name := match nft.name with
      | some n => if n = "" then "NFT #" ++ nft.tokenid else n
      | none => "NFT #" ++ nft.tokenid
    price := nft.price
    tokenid := nft.tokenid }

/-- No step of the loop body throws for this entry: `resolveIPFS` accepts the
image reference, and both buttons are found in the parsed card, so that neither
handler assignment (main.js 175, 177) meets `null`. -/
def cardIntact (html : HtmlParser) (nft : NFT) : Bool :=
  !nft.image.throws && (html (cardMarkup nft)).buyBtn && (html (cardMarkup nft)).listBtn

/-- The card built for one entry (main.js 154-193).  The Buy handler is
attached when the Buy button is found; the List handler when, after that, the
List button is found. -/
def renderCard (html : HtmlParser) (nft : NFT) : Card :=
  { nft := nft
    markup := cardMarkup nft
    dom := html (cardMarkup nft)
    buyHandler := (html (cardMarkup nft)).buyBtn
    listHandler := (html (cardMarkup nft)).buyBtn && (html (cardMarkup nft)).listBtn
    price := .fromEntry nft.price
    priceInput := "" }

/-- The render loop over a batch (main.js 153-194): the cards appended, and
whether the loop was left by a throw.  A throw of `resolveIPFS` comes before
the card exists.  Each card is appended before its handlers are assigned, so a
card with a missing button is appended and the assignment to `null.onclick`
then throws, ending the loop. -/
def renderLoop (html : HtmlParser) : List NFT → List Node × Bool
  | [] => ([], false)
  | nft :: rest =>
    if nft.image.throws then ([], true)
    else if cardIntact html nft then
      (Node.card (renderCard html nft) :: (renderLoop html rest).1, (renderLoop html rest).2)
    else ([Node.card (renderCard html nft)], true)

/-- The part of `loadNFTs` after the catalog is available (main.js 143-196):
the cursor is advanced by the batch length before the loop runs, and a throw
from the loop is caught and logged. -/
def revealBatch (html : HtmlParser) (s : State) : State :=
  if s.loadedCount ≥ s.allNFTs.length then
    if s.loadedCount = 0 then { s with marketplace := [Node.noItems] } else s
  else
    let batch := slice s.allNFTs s.loadedCount (s.loadedCount + BATCH_SIZE)
    let s1 := { s with
      loadedCount := s.loadedCount + batch.length
      marketplace := s.marketplace ++ (renderLoop html batch).1 }
    if (renderLoop html batch).2 then s1.emit (.consoleError "Load NFTs Error:") else s1

/-- A call of `loadNFTs()` up to its first suspension (main.js 132-138): with
the guard set it returns at once; with an empty catalog it issues the fetch and
stays suspended with the guard held; otherwise it reveals a batch and releases
the guard. -/
def loadNFTs_start (html : HtmlParser) (s : State) : State :=
  if s.loadingNFTs then s
  else
    let s1 := { s with loadingNFTs := true }
    if s1.allNFTs.length = 0 then s1.emit .fetchNfts
    else { revealBatch html s1 with loadingNFTs := false }

/-- The suspended call resumes when its fetch settles (main.js 139-199). -/
def loadNFTs_settle (html : HtmlParser) (r : FetchResult) (s : State) : State :=
  if s.loadingNFTs then
    match r with
    | .failed => { s.emit (.consoleError "Load NFTs Error:") with loadingNFTs := false }
    | .ok nfts =>
      { revealBatch html { s with allNFTs := nfts.getD [] } with loadingNFTs := false }
  else s

/-- A call of `loadNFTs()` that runs to completion before anything else
happens; `r` is what the backend answers if the call fetches. -/
def loadNFTs (html : HtmlParser) (r : FetchResult) (s : State) : State :=
  if s.loadingNFTs then s
  else
    let s1 := loadNFTs_start html s
    if s1.loadingNFTs then loadNFTs_settle html r s1 else s1

/-- The callback scheduled by `buyNFT` and `listNFT` (main.js 253-258,
332-337). -/
def invalidateCache (html : HtmlParser) (s : State) : State :=
  loadNFTs_start html { s with loadedCount := 0, allNFTs := [], marketplace := [] }

/-- What can happen to the feed. -/
inductive FeedEvent where
  | call
  | settle (r : FetchResult)
  | invalidate

def FeedEvent.isInvalidate : FeedEvent → Bool
  | .invalidate => true
  | _ => false

def feedStep (html : HtmlParser) (s : State) : FeedEvent → State
  | .call => loadNFTs_start html s
  | .settle r => loadNFTs_settle html r s
  | .invalidate => invalidateCache html s

/-- The state after a sequence of feed events. -/
def feedRun (html : HtmlParser) (evs : List FeedEvent) (s : State) : State :=
  evs.foldl (feedStep html) s

/-- The state after sequential `loadNFTs` calls, one backend answer each. -/
def loadSeq (html : HtmlParser) (rs : List FetchResult) (s : State) : State :=
  rs.foldl (fun st r => loadNFTs html r st) s

/-! ## Connection manager (main.js 73-124) -/

/-- What the wallet answers during one `connectWallet` call, and what the
backend answers to the load that follows a successful connect. -/
structure ConnectEnv where
  hasEthereum : Bool
  requestAccounts : Except JsError Unit
  getAddress : Except JsError String
  getNetwork : Except JsError Nat
  addEthereumChain : Except JsError Unit
  nfts : FetchResult

/-- The `catch` block of `connectWallet` (main.js 109-112). -/
def connectFail (e : JsError) (s : State) : State :=
  (s.emit (.consoleError "")).emit (.alert ("Wallet connect xətası: " ++ e.message))

/-- The text put into the address label: the first six and the last four
characters of the address around three dots. -/
def shortAddress (a : String) : String :=
  ⟨a.data.take 6 ++ "...".data ++ a.data.drop (a.data.length - 4)⟩

/-- The tail of `connectWallet` from the Seaport construction on
(main.js 101-108). -/
def connectFinish (html : HtmlParser) (env : ConnectEnv) (signer : Signer) (addr : String)
    (s : State) : State :=
  let s1 := { s with
    seaport := some { signer := signer, contractAddress := SEAPORT_CONTRACT_ADDRESS }
    connectBtnDisplay := "none"
    disconnectBtnDisplay := "inline-block"
    addrSpan := shortAddress addr }
  loadNFTs html env.nfts (notify "Cüzdan qoşuldu!" 3000 s1)

/-- The function `connectWallet()`, run to completion. -/
def connectWallet (html : HtmlParser) (env : ConnectEnv) (s : State) : State :=
  if !env.hasEthereum then s.emit (.alert "Metamask tapılmadı!")
  else
    let provider : Provider := { network := "any" }
    let s1 := { s with provider := some provider }.emit .requestAccounts
    match env.requestAccounts with
    | .error e => connectFail e s1
    | .ok _ =>
      let signer : Signer := { provider := provider }
      let s2 := { s1 with signer := some signer }.emit .getAddress
      match env.getAddress with
      | .error e => connectFail e s2
      | .ok a =>
        let addr := toLowerCase a
        let s3 := { s2 with userAddress := some addr }.emit .getNetwork
        match env.getNetwork with
        | .error e => connectFail e s3
        | .ok chainId =>
          if chainId ≠ APECHAIN_ID then
            let s4 := s3.emit .addEthereumChain
            match env.addEthereumChain with
            | .ok _ => notify "Şəbəkə dəyişdirildi, yenidən qoşulun." 3000 s4
            | .error _ =>
              connectFinish html env signer addr (s4.emit (.consoleError "Network switch error:"))
          else connectFinish html env signer addr s3

/-- The handler `disconnectBtn.onclick` (main.js 115-122). -/
def disconnect (s : State) : State :=
  notify "Cüzdan ayırıldı" 2000
    { s with
      provider := none, signer := none, seaport := none, userAddress := none
      connectBtnDisplay := "inline-block"
      disconnectBtnDisplay := "none"
      addrSpan := ""
      marketplace := [] }

/-- The session fields are all populated. -/
def State.sessionFull (s : State) : Bool :=
  s.provider.isSome && s.signer.isSome && s.userAddress.isSome && s.seaport.isSome

/-- The session fields are all null. -/
def State.sessionNull (s : State) : Bool :=
  s.provider.isNone && s.signer.isNone && s.userAddress.isNone && s.seaport.isNone

/-- The "all-or-nothing" property of the session fields. -/
def State.sessionAllOrNothing (s : State) : Bool := s.sessionFull || s.sessionNull

/-- A populated order client comes with the other three fields populated. -/
def State.sessionGuarded (s : State) : Prop :=
  s.seaport.isSome = true →
    s.provider.isSome = true ∧ s.signer.isSome = true ∧ s.userAddress.isSome = true

/-- Runs of the connection handlers, one after the other. -/
inductive SessionEvent where
  | connect (env : ConnectEnv)
  | disconnect

def sessionStep (html : HtmlParser) (s : State) : SessionEvent → State
  | .connect env => connectWallet html env s
  | .disconnect => disconnect s

def sessionRun (html : HtmlParser) (evs : List SessionEvent) (s : State) : State :=
  evs.foldl (sessionStep html) s

/-- A wallet on another network that accepts the add-network request. -/
def otherNetworkEnv : ConnectEnv :=
  { hasEthereum := true
    requestAccounts := .ok ()
    getAddress := .ok "0x00000000000000000000000000000000000000AA"
    getNetwork := .ok 1
    addEthereumChain := .ok ()
    nfts := .ok (some []) }

/-! ## Buy path (main.js 207-263) -/

/-- Outcomes of the external calls made by one `buyNFT` run.  `JSONparse`
is `JSON.parse` (`none` when it throws); `fulfillOrder` tells whether the
returned object carries `executeAllActions`; `executeAllActions` tells whether
the transaction carries `wait`. -/
structure BuyEnv where
  JSONparse : String → Option JsVal
  getAddress : Except JsError String
  fulfillOrder : JsVal → String → Except JsError Bool
  executeAllActions : Except JsError Bool
  txWait : Except JsError Unit
  postBuy : BuyBody → Except JsError Unit

/-- Result of the order normalization at the start of `buyNFT`. -/
inductive OrderCheck where
  | parseError
  | invalid
  | usable (order : JsVal)

/-- The expression `nftRecord.seaport_order ?? nftRecord.seaportOrderJSON`
(main.js 212). -/
def storedOrder (nftRecord : NFT) : JsVal :=
  if nftRecord.seaport_order.isNullish then nftRecord.seaportOrderJSON
  else nftRecord.seaport_order

/-- The normalization of the stored order (main.js 212-223). -/
def normalizeOrder (JSONparse : String → Option JsVal) (nftRecord : NFT) : OrderCheck :=
  let parsed : Option JsVal :=
    match storedOrder nftRecord with
    | .str t => JSONparse t
    | v => some v
  match parsed with
  | none => .parseError
  | some rawOrder =>
    let rawOrder1 :=
      if rawOrder.truthy && (rawOrder.get "order").truthy then rawOrder.get "order"
      else rawOrder
    if !rawOrder1.truthy || !(rawOrder1.get "parameters").truthy then .invalid
    else .usable rawOrder1

/-- The `catch` block of `buyNFT` (main.js 259-262). -/
def buyFail (e : JsError) (s : State) : State :=
  (s.emit (.consoleError "Buy Error:")).emit (.alert ("Buy Xətası: " ++ e.reasonOrMessage))

/-- The steps of `buyNFT` after the transaction is settled (main.js 235-258). -/
def buyNotifyBackend (env : BuyEnv) (nftRecord : NFT) (buyer : String) (s : State) : State :=
  let s1 := notify "NFT uğurla alındı! 🎉" 3000 s
  let body : BuyBody :=
    { tokenid := nftRecord.tokenid
      nft_contract := NFT_CONTRACT_ADDRESS
      marketplace_contract := SEAPORT_CONTRACT_ADDRESS
      buyer_address := buyer
      order_hash := nftRecord.order_hash
      price := match nftRecord.price with
        | some p => if p = "" then none else some p
        | none => none
      on_chain := true }
  let s2 := s1.emit (.postBuy body)
  match env.postBuy body with
  | .error e => buyFail e s2
  | .ok _ => s2.emit (.setTimeout 2000)

/-- The `try` block of `buyNFT` (main.js 226-258). -/
def buyFulfill (env : BuyEnv) (nftRecord : NFT) (rawOrder : JsVal) (s : State) : State :=
  let s1 := s.emit .getAddress
  match env.getAddress with
  | .error e => buyFail e s1
  | .ok buyer =>
    let s2 := (notify "Transaction imzalanır..." 3000 s1).emit (.fulfillOrder rawOrder buyer)
    match env.fulfillOrder rawOrder buyer with
    | .error e => buyFail e s2
    | .ok false =>
      buyFail { reason := none, message := "Seaport executeAllActions undefined" } s2
    | .ok true =>
      let s3 := s2.emit .executeAllActions
      match env.executeAllActions with
      | .error e => buyFail e s3
      | .ok false => buyNotifyBackend env nftRecord buyer s3
      | .ok true =>
        let s4 := s3.emit .txWait
        match env.txWait with
        | .error e => buyFail e s4
        | .ok _ => buyNotifyBackend env nftRecord buyer s4

/-- The function `buyNFT(nftRecord)`, run to completion. -/
def buyNFT (env : BuyEnv) (nftRecord : NFT) (s : State) : State :=
  if s.signer.isNone || s.seaport.isNone then s.emit (.alert "Cüzdan qoşulmayıb!")
  else
    let s1 := notify "Alış hazırlanır..." 3000 s
    match normalizeOrder env.JSONparse nftRecord with
    | .parseError =>
      (s1.emit (.consoleError "Order parse error")).emit (.alert "Order parse xətası")
    | .invalid => s1.emit (.alert "Bu NFT-nin satış məlumatları xətalıdır!")
    | .usable rawOrder => buyFulfill env nftRecord rawOrder s1

/-- An entry whose stored order is `v`. -/
def entryWithOrder (v : JsVal) : NFT :=
  { tokenid := "1", name := none, image := .absent, price := none,
    seaport_order := v, seaportOrderJSON := .undefined, order_hash := none }

/-- An order object that has both a `parameters` and an `order` field. -/
def orderWithOrderField : JsVal :=
  .obj [("parameters", .obj [("offerer", .str "0x01")]), ("order", .obj [("note", .num 1)])]

/-- A plain order object: `parameters` and `signature`. -/
def plainOrder : JsVal :=
  .obj [("parameters", .obj [("offerer", .str "0x01")]), ("signature", .str "0x02")]

/-- A stand-in for `JSON.parse` that knows one document, an encoding of
`plainOrder`. -/
def parseOneDocument (t : String) : Option JsVal :=
  if t = "plainOrder.json" then some plainOrder else none

/-- A wallet session as `connectWallet` builds it. -/
def connectedState : State :=
  { init with
    provider := some { network := "any" }
    signer := some { provider := { network := "any" } }
    seaport := some { signer := { provider := { network := "any" } },
                      contractAddress := SEAPORT_CONTRACT_ADDRESS }
    userAddress := some "0x00000000000000000000000000000000000000aa" }

/-- The buy ended before any SDK, wallet, chain or backend call: only the log
grew, by effects that are none of those, the last one an alert. -/
def AbortsQuietly (s t : State) : Prop :=
  ∃ (added : List Effect) (msg : String),
    t = { s with log := s.log ++ added ++ [Effect.alert msg] } ∧
    ∀ e ∈ added ++ [Effect.alert msg],
      e.isSdkCall = false ∧ e.isChainCall = false ∧ e.isBackendCall = false

/-- Unwrap one `order` envelope layer when there is one (a truthy `order`
field). -/
def unwrapOnce (w : JsVal) : JsVal :=
  if (w.get "order").truthy then w.get "order" else w

/-- A buy environment in which every external call succeeds. -/
def happyBuyEnv : BuyEnv :=
  { JSONparse := parseOneDocument
    getAddress := .ok "0x00000000000000000000000000000000000000aa"
    fulfillOrder := fun _ _ => .ok true
    executeAllActions := .ok true
    txWait := .ok ()
    postBuy := fun _ => .ok () }

/-- The state in which `buyNFT` ends when it rejects the order data. -/
def orderRejected (s : State) : State :=
  { s with log := s.log ++
      [Effect.notify "Alış hazırlanır..." 3000,
       Effect.alert "Bu NFT-nin satış məlumatları xətalıdır!"] }

/-- The state in which `buyNFT` ends when the stored string does not parse. -/
def parseRejected (s : State) : State :=
  { s with log := s.log ++
      [Effect.notify "Alış hazırlanır..." 3000,
       Effect.consoleError "Order parse error",
       Effect.alert "Order parse xətası"] }

/-! ## Ether amounts (main.js 187, 317, 327) -/

/-- Value of a decimal digit character. -/
def digitValue (c : Char) : Nat := c.toNat - 48

/-- Value of a string of decimal digits. -/
def decimalValue (cs : List Char) : Nat := cs.foldl (fun acc c => 10 * acc + digitValue c) 0

/-- Remove the zeros at the end of a digit string. -/
def trimTrailingZeros (cs : List Char) : List Char :=
  (cs.reverse.dropWhile (fun c => c == '0')).reverse

/-- Modelled from the spec: the unsigned part of `ethers.utils.parseEther`
(library code that is not under src/).  The text must consist of digits and
points, not be a lone point, hold at most one point, and have at most 18
fractional digits once trailing zeros are dropped; the result is the amount in
the smallest unit, 10^18 per unit. -/
def parseMagnitude (value : List Char) : Option Nat :=
  if value = [] || !(value.all (fun c => c.isDigit || c == '.')) then none
  else if value = ['.'] then none
  else
    let whole := value.takeWhile (fun c => c != '.')
    let afterPoint := (value.dropWhile (fun c => c != '.')).tail
    if afterPoint.contains '.' then none
    else
      let fraction := trimTrailingZeros (if afterPoint = [] then ['0'] else afterPoint)
      if fraction.length > 18 then none
      else
        let padded := fraction ++ List.replicate (18 - fraction.length) '0'
        some (decimalValue whole * 10 ^ 18 + decimalValue padded)

/-- Modelled from the spec: `ethers.utils.parseEther`, a function of the ethers
library that is not under src/; it converts a price in decimal units, written
as an optional minus sign followed by digits with at most one point and at most
18 significant fractional digits, to the integer amount in the smallest unit,
and throws (`none`) on any other string. -/
def parseEther (s : String) : Option Int :=
  match s.data with
  | '-' :: value =>
    match parseMagnitude value with
    | some n => some (-(Int.ofNat n))
    | none => none
  | value =>
    match parseMagnitude value with
    | some n => some (Int.ofNat n)
    | none => none

/-- Modelled from the spec: the unsigned part of `ethers.utils.formatEther`
(library code that is not under src/): whole part, a point, and the 18
fractional digits without their trailing zeros (one digit at least). -/
def formatMagnitude (value : Nat) : List Char :=
  let digits := Nat.toDigits 10 (value % 10 ^ 18)
  let padded := List.replicate (18 - digits.length) '0' ++ digits
  let trimmed := trimTrailingZeros padded
  let fraction := if trimmed = [] then ['0'] else trimmed
  Nat.toDigits 10 (value / 10 ^ 18) ++ '.' :: fraction

/-- Modelled from the spec: `ethers.utils.formatEther`, a function of the
ethers library that is not under src/; it writes an integer amount of the
smallest unit as a price in decimal units. -/
def formatEther (wei : Int) : String :=
  ⟨(if wei < 0 then ['-'] else []) ++ formatMagnitude wei.natAbs⟩

/-! ## List path (main.js 177-193, 266-342) -/

/-- Outcomes of the external calls made by one `listNFT` run.  `now` is
`Date.now()`; `createOrder` tells whether the returned object carries
`executeAllActions`; `executeAllActions` yields the signed order;
`orderToJsonSafe` is the serialisation of main.js 50-61, which no property
below depends on; `typeError` is the error the engine throws for the named
access on `null` or `undefined`. -/
structure ListEnv where
  getAddress : Except JsError String
  ownerOf : String → Except JsError String
  isApprovedForAll : String → String → Except JsError Bool
  setApprovalForAll : Except JsError Unit
  approvalWait : Except JsError Unit
  now : Nat
  createOrder : OrderInput → String → Except JsError Bool
  executeAllActions : Except JsError JsVal
  getOrderHash : JsVal → Except JsError String
  orderToJsonSafe : JsVal → Except JsError JsVal
  postOrder : OrderBody → Except JsError Unit
  typeError : String → JsError

/-- The `catch` block of `listNFT` (main.js 338-341). -/
def listFail (e : JsError) (s : State) : State :=
  (s.emit (.consoleError "List Error:")).emit
    (.alert ("Listing Xətası: " ++ (if e.message = "" then "Bilinməyən xəta" else e.message)))

/-- The card update of main.js 327-328 on the node at position `i`: the new
children of the marketplace, and whether a `querySelector` came back `null` so
that the assignment threw.  The price line is written before the price input is
looked up.  A position past the end stands for a card that is no longer
displayed. -/
def setListedPrice (i : Nat) (text : String) : List Node → List Node × Bool
  | [] => ([], false)
  | node :: rest =>
    match i with
    | 0 =>
      match node with
      | .card c =>
        if !c.dom.priceLine then (.card c :: rest, true)
        else if !c.dom.priceInput then (.card { c with price := .listed text } :: rest, true)
        else (.card { c with price := .listed text, priceInput := "" } :: rest, false)
      | .noItems => (.noItems :: rest, true)
    | j + 1 => (node :: (setListedPrice j text rest).1, (setListedPrice j text rest).2)

/-- The steps of `listNFT` once the order is signed (main.js 307-337). -/
def listPublish (env : ListEnv) (tokenStr : String) (priceWei : Int) (seller : String)
    (card : Nat) (signedOrder : JsVal) (s : State) : State :=
  if signedOrder.isNullish then listFail (env.typeError "signedOrder.parameters") s
  else
    let s1 := s.emit .getOrderHash
    match env.getOrderHash (signedOrder.get "parameters") with
    | .error e => listFail e s1
    | .ok orderHash =>
      match env.orderToJsonSafe signedOrder with
      | .error e => listFail e s1
      | .ok plain =>
        let body : OrderBody :=
          { tokenid := tokenStr
            price := formatEther priceWei
            nft_contract := NFT_CONTRACT_ADDRESS
            marketplace_contract := SEAPORT_CONTRACT_ADDRESS
            seller_address := toLowerCase seller
            seaport_order := plain
            order_hash := orderHash
            on_chain := false }
        let s2 := (notify "Backend-ə göndərilir..." 3000 s1).emit (.postOrder body)
        match env.postOrder body with
        | .error e => listFail e s2
        | .ok _ =>
          let updated :=
            setListedPrice card ("Qiymət: " ++ formatEther priceWei ++ " APE") s2.marketplace
          let s3 := { s2 with marketplace := updated.1 }
          if updated.2 then listFail (env.typeError "card.querySelector") s3
          else
            (notify ("NFT #" ++ tokenStr ++ " uğurla listələndi!") 3000 s3).emit
              (.setTimeout 1500)

/-- The signing steps of `listNFT` (main.js 293-305). -/
def listSign (env : ListEnv) (tokenStr : String) (priceWei : Int) (seller : String)
    (card : Nat) (s : State) : State :=
  let orderInput : OrderInput :=
    { offerItemType := 3
      offerToken := NFT_CONTRACT_ADDRESS
      offerIdentifier := tokenStr
      considerationItemType := 0
      considerationToken := ZERO_ADDRESS
      considerationIdentifier := "0"
      considerationAmount := toString priceWei
      considerationRecipient := seller
      startTime := toString (((env.now / 1000 : Nat) : Int) - 60)
      endTime := toString (env.now / 1000 + 30 * 86400) }
  let s1 := (notify "İmza tələb olunur..." 3000 s).emit (.createOrder orderInput seller)
  match env.createOrder orderInput seller with
  | .error e => listFail e s1
  | .ok false =>
    listFail { reason := none, message := "Seaport executeAllActions undefined (listNFT)" } s1
  | .ok true =>
    let s2 := s1.emit .executeAllActions
    match env.executeAllActions with
    | .error e => listFail e s2
    | .ok signedOrder => listPublish env tokenStr priceWei seller card signedOrder s2

/-- The approval steps of `listNFT` (main.js 285-291). -/
def listApprove (env : ListEnv) (tokenStr : String) (priceWei : Int) (seller : String)
    (card : Nat) (s : State) : State :=
  let s1 := s.emit (.isApprovedForAll seller SEAPORT_CONTRACT_ADDRESS)
  match env.isApprovedForAll seller SEAPORT_CONTRACT_ADDRESS with
  | .error e => listFail e s1
  | .ok true => listSign env tokenStr priceWei seller card s1
  | .ok false =>
    let s2 := (notify "Approve verilir..." 3000 s1).emit
      (.setApprovalForAll SEAPORT_CONTRACT_ADDRESS true)
    match env.setApprovalForAll with
    | .error e => listFail e s2
    | .ok _ =>
      let s3 := s2.emit .txWait
      match env.approvalWait with
      | .error e => listFail e s3
      | .ok _ => listSign env tokenStr priceWei seller card (notify "Approve edildi!" 3000 s3)

/-- The function `listNFT(tokenid, priceWei, card)`, run to completion; `card`
is the position of the card in the marketplace. -/
def listNFT (env : ListEnv) (tokenid : String) (priceWei : Int) (card : Nat) (s : State) :
    State :=
  if s.signer.isNone || s.seaport.isNone then s.emit (.alert "Cüzdan qoşulmayıb!")
  else if tokenid = "" then s.emit (.alert "Token ID boşdur!")
  else
    let s1 := s.emit .getAddress
    match env.getAddress with
    | .error e => listFail e s1
    | .ok seller =>
      let s2 := (notify "Sahiblik yoxlanılır..." 3000 s1).emit (.ownerOf tokenid)
      match env.ownerOf tokenid with
      | .error e => listFail e s2
      | .ok owner =>
        if toLowerCase owner ≠ toLowerCase seller then
          s2.emit (.alert "Bu NFT sizə məxsus deyil!")
        else listApprove env tokenid priceWei seller card s2

/-- The click handler of a card's List button (main.js 177-193), present
only on a card whose handler got attached; reading the value of a price input
that was not found throws and ends the handler; `trim` removes ASCII white
space. -/
def listBtnClick (env : ListEnv) (card : Nat) (s : State) : State :=
  match s.marketplace.get? card with
  | some (.card c) =>
    if !c.listHandler then s
    else if !c.dom.priceInput then s
    else
      let priceStr := c.priceInput.trim
      match c.dom.dataToken with
      | none => notify "Xəta: Token ID yoxdur" 3000 s
      | some rawTokenId =>
        if rawTokenId = "" then notify "Xəta: Token ID yoxdur" 3000 s
        else if priceStr = "" then notify "Zəhmət olmasa qiymət yazın" 3000 s
        else
          match parseEther priceStr with
          | none => notify "Qiymət formatı yanlışdır" 3000 s
          | some priceWei => listNFT env rawTokenId priceWei card s
  | _ => s

/-- The effects of `listNFT` that come after the ownership check: approval
check and approval transaction, order creation and signing, the backend POST
and the scheduled cache invalidation. -/
def Effect.isListingStep : Effect → Bool
  | .isApprovedForAll _ _ => true
  | .setApprovalForAll _ _ => true
  | .txWait => true
  | .createOrder _ _ => true
  | .executeAllActions => true
  | .getOrderHash => true
  | .postOrder _ => true
  | .setTimeout _ => true
  | _ => false

/-- The state in which `listNFT` ends when the caller is not the owner. -/
def notOwnerRejected (tokenid : String) (s : State) : State :=
  { s with log := s.log ++
      [Effect.getAddress,
       Effect.notify "Sahiblik yoxlanılır..." 3000,
       Effect.ownerOf tokenid,
       Effect.alert "Bu NFT sizə məxsus deyil!"] }

/-- A list environment in which the token belongs to somebody else. -/
def foreignOwnerEnv : ListEnv :=
  { getAddress := .ok "0x00000000000000000000000000000000000000AA"
    ownerOf := fun _ => .ok "0x00000000000000000000000000000000000000bb"
    isApprovedForAll := fun _ _ => .ok true
    setApprovalForAll := .ok ()
    approvalWait := .ok ()
    now := 1700000000000
    createOrder := fun _ _ => .ok true
    executeAllActions := .ok plainOrder
    getOrderHash := fun _ => .ok "0x03"
    orderToJsonSafe := fun v => .ok v
    postOrder := fun _ => .ok ()
    typeError := fun what => { reason := none, message := "Cannot read " ++ what } }

/-- The invariant carried along every run of the feed: the cursor is within
the catalog, and it is 0 while a call is suspended at its fetch. -/
def FeedInv (s : State) : Prop :=
  s.loadedCount ≤ s.allNFTs.length ∧ (s.loadingNFTs = true → s.loadedCount = 0)

/-- The cards of a list of entries, in order. -/
def cardsOf (html : HtmlParser) (nfts : List NFT) : List Node :=
  nfts.map (fun nft => Node.card (renderCard html nft))

/-- The state reached from `init` once `k` sequential loads have run against a
non-empty `catalog` all of whose cards parse with both buttons (closed form
used in the proofs). -/
def afterLoads (html : HtmlParser) (catalog : List NFT) (k : Nat) : State :=
  { init with
    allNFTs := catalog
    loadedCount := min (BATCH_SIZE * k) catalog.length
    marketplace := cardsOf html (catalog.take (BATCH_SIZE * k))
    log := [Effect.fetchNfts] }

/-- The effect is the catalog request `GET /api/nfts`. -/
def Effect.isFetch : Effect → Bool
  | .fetchNfts => true
  | _ => false

/-- How many catalog requests the log holds. -/
def fetchCount (s : State) : Nat := s.log.countP Effect.isFetch

/-- A stand-in for the browser on markup-free values: every element of the
template is found and `data-token` reads back the token id. -/
def templateHtml : HtmlParser := fun m =>
  { buyBtn := true, listBtn := true, dataToken := some m.tokenid,
    priceLine := true, priceInput := true }

/-- A stand-in for the browser that parses the template as `templateHtml`
does, except that the name `<!--` opens a comment that runs to the end of the
card, so that nothing after the heading is found. -/
def commentHtml : HtmlParser := fun m =>
  if m.name = "<!--" then
    { buyBtn := false, listBtn := false, dataToken := none,
      priceLine := false, priceInput := false }
  else templateHtml m

/-- An entry with a plain name. -/
def plainEntry : NFT :=
  { tokenid := "1", name := some "One", image := .absent, price := none,
    seaport_order := .undefined, seaportOrderJSON := .undefined, order_hash := none }

/-- An entry whose name opens an HTML comment. -/
def commentEntry : NFT := { plainEntry with name := some "<!--" }

/-- A backend answer that carries an empty catalog. -/
def FetchResult.isEmpty : FetchResult → Bool
  | .ok none => true
  | .ok (some []) => true
  | _ => false

/-! ## Lemmas on the string helpers -/

theorem replaceFirst_at_start (pat rep rest : List Char) (h : pat ≠ []) :
    replaceFirst pat rep (pat ++ rest) = rep ++ rest := by
  cases pat with
  | nil => exact absurd rfl h
  | cons p ps =>
    have hp : (p :: ps).isPrefixOf (p :: (ps ++ rest)) = true := by
      have : (p :: ps) <+: (p :: (ps ++ rest)) := ⟨rest, by simp⟩
      simp
    simp only [List.cons_append, replaceFirst, hp, if_true]
    simp

theorem startsWith_iff (s p : String) :
    startsWith s p = true ↔ ∃ r : List Char, s.data = p.data ++ r := by
  unfold startsWith
  rw [ List.isPrefixOf_iff_prefix]
  constructor
  · rintro ⟨r, hr⟩; exact ⟨r, hr.symm⟩
  · rintro ⟨r, hr⟩; exact ⟨r, hr.symm⟩

theorem GATEWAY_data : GATEWAY.data = 'h' :: "ttps://cloudflare-ipfs.com/ipfs/".data := rfl

theorem NO_IMAGE_data : NO_IMAGE.data = 'h' :: "ttps://via.placeholder.com/300?text=No+Image".data := rfl

/-- A string whose first character is `h` is returned unchanged. -/
theorem resolveIPFS_of_h (u : String) (t : List Char) (h : u.data = 'h' :: t) :
    resolveIPFS (some u) = u := by
  have h0 : u ≠ "" := by
    intro e; rw [e] at h; exact absurd h (by simp)
  have h1 : startsWith u "ipfs://" = false := by
    unfold startsWith; rw [h]; rfl
  have h2 : startsWith u "Qm" = false := by
    unfold startsWith; rw [h]; rfl
  simp [resolveIPFS, h0, h1, h2]

theorem resolveIPFS_ipfs (u : String) (h : startsWith u "ipfs://" = true) :
    ∃ r : List Char, u.data = "ipfs://".data ++ r ∧
      resolveIPFS (some u) = GATEWAY ++ ⟨r⟩ := by
  obtain ⟨r, hr⟩ := (startsWith_iff u "ipfs://").1 h
  refine ⟨r, hr, ?_⟩
  have h0 : u ≠ "" := by
    intro e; rw [e] at hr; exact absurd hr (by simp)
  simp only [resolveIPFS, h0, h, if_true, if_false]
  unfold jsReplace
  rw [hr, replaceFirst_at_start _ _ _ (by simp)]
  rfl

theorem startsWith_Qm_not_ipfs (u : String) (h : startsWith u "Qm" = true) :
    startsWith u "ipfs://" = false := by
  obtain ⟨r, hr⟩ := (startsWith_iff u "Qm").1 h
  unfold startsWith; rw [hr]; rfl

theorem resolveIPFS_startsWith_h (url : Option String) :
    (∃ t, (resolveIPFS url).data = 'h' :: t) ∨
      (∃ u, url = some u ∧ u ≠ "" ∧ startsWith u "ipfs://" = false ∧
        ¬ (startsWith u "Qm" = true ∧ jsLength u ≥ 46) ∧ resolveIPFS url = u) := by
  cases url with
  | none => exact Or.inl ⟨_, NO_IMAGE_data⟩
  | some u =>
    by_cases h0 : u = ""
    · left
      have : resolveIPFS (some u) = NO_IMAGE := by simp [resolveIPFS, h0]
      rw [this]; exact ⟨_, NO_IMAGE_data⟩
    · by_cases h1 : startsWith u "ipfs://" = true
      · obtain ⟨r, -, hr⟩ := resolveIPFS_ipfs u h1
        left; rw [hr]; exact ⟨_, by rw [String.data_append, GATEWAY_data]; rfl⟩
      · by_cases h2 : startsWith u "Qm" = true ∧ jsLength u ≥ 46
        · left
          have : resolveIPFS (some u) = GATEWAY ++ u := by
            simp [resolveIPFS, h0, h1, h2.1, h2.2]
          rw [this]; exact ⟨_, by rw [String.data_append, GATEWAY_data]; rfl⟩
        · right
          refine ⟨u, rfl, h0, by simpa using h1, h2, ?_⟩
          have h2' : (startsWith u "Qm" && decide (jsLength u ≥ 46)) = false := by
            by_cases a : startsWith u "Qm" = true
            · have : ¬ jsLength u ≥ 46 := fun b => h2 ⟨a, b⟩
              simp [this]
            · simp [a]
          simp only [resolveIPFS, h0, h1, h2', if_false]
          rfl

/-- C10: `resolveIPFS` is idempotent, its result never starts with `ipfs://`,
and its four cases are: absent or empty url gives the placeholder image; a url
starting with `ipfs://` gives the gateway followed by the rest; a url starting
with `Qm` of length at least 46 gives the gateway followed by the url; every
other url is returned unchanged. -/
theorem resolveIPFS_idempotent_and_cases (url : Option String) :
    resolveIPFS (some (resolveIPFS url)) = resolveIPFS url ∧
    startsWith (resolveIPFS url) "ipfs://" = false ∧
    ((url = none ∨ url = some "") → resolveIPFS url = NO_IMAGE) ∧
    (∀ u, url = some u → startsWith u "ipfs://" = true →
      ∃ rest : String, u = "ipfs://" ++ rest ∧ resolveIPFS url = GATEWAY ++ rest) ∧
    (∀ u, url = some u → startsWith u "Qm" = true → jsLength u ≥ 46 →
      resolveIPFS url = GATEWAY ++ u) ∧
    (∀ u, url = some u → u ≠ "" → startsWith u "ipfs://" = false →
      ¬ (startsWith u "Qm" = true ∧ jsLength u ≥ 46) → resolveIPFS url = u) := by
  refine ⟨?_, ?_, ?_, ?_, ?_, ?_⟩
  · rcases resolveIPFS_startsWith_h url with ⟨t, ht⟩ | ⟨u, hu, -, -, -, he⟩
    · exact resolveIPFS_of_h _ t ht
    · rw [he, ← hu, he]
  · rcases resolveIPFS_startsWith_h url with ⟨t, ht⟩ | ⟨u, -, -, h1, -, he⟩
    · unfold startsWith; rw [ht]; rfl
    · rw [he]; exact h1
  · rintro (h | h) <;> subst h <;> rfl
  · intro u hu h1
    subst hu
    obtain ⟨r, hr, he⟩ := resolveIPFS_ipfs u h1
    exact ⟨⟨r⟩, String.ext (by rw [hr, String.data_append]), he⟩
  · intro u hu h2 h3
    subst hu
    have h1 := startsWith_Qm_not_ipfs u h2
    have h0 : u ≠ "" := by
      intro e; rw [e] at h2; exact absurd h2 (by decide)
    simp [resolveIPFS, h0, h1, h2, h3]
  · intro u hu h0 h1 h2
    subst hu
    rcases resolveIPFS_startsWith_h (some u) with ⟨t, ht⟩ | ⟨v, hv, -, -, -, he⟩
    · exact resolveIPFS_of_h u t (by
        have h2' : (startsWith u "Qm" && decide (jsLength u ≥ 46)) = false := by
          by_cases a : startsWith u "Qm" = true
          · have : ¬ jsLength u ≥ 46 := fun b => h2 ⟨a, b⟩
            simp [this]
          · simp [a]
        have e : resolveIPFS (some u) = u := by
          simp only [resolveIPFS, h0, h1, h2', if_false]
          rfl
        rw [e] at ht; exact ht)
    · cases hv; exact he

theorem resolveIPFS_idempotent_and_cases_witness :
    resolveIPFS (some "images/one.png") = "images/one.png" ∧
    resolveIPFS (some (resolveIPFS (some "ipfs://QmHash"))) = resolveIPFS (some "ipfs://QmHash") :=
  ⟨(resolveIPFS_idempotent_and_cases (some "images/one.png")).2.2.2.2.2 "images/one.png" rfl
      (by decide) (by decide) (by decide),
   (resolveIPFS_idempotent_and_cases (some "ipfs://QmHash")).1⟩

/-! ## Feed loader: lemmas -/

theorem slice_length {α : Type} (xs : List α) (a b : Nat) :
    (slice xs a b).length = min (b - a) (xs.length - a) := by
  simp [slice]

theorem take_append_slice {α : Type} (xs : List α) (a b : Nat) (h : a ≤ b) :
    xs.take a ++ slice xs a b = xs.take b := by
  have e : b = a + (b - a) := by omega
  conv_rhs => rw [e, List.take_add]
  rfl

theorem mem_of_mem_slice {α : Type} (xs : List α) (a b : Nat) (x : α) (h : x ∈ slice xs a b) :
    x ∈ xs :=
  List.mem_of_mem_drop (List.mem_of_mem_take h)

theorem renderLoop_intact (html : HtmlParser) (batch : List NFT)
    (h : ∀ x ∈ batch, cardIntact html x = true) :
    renderLoop html batch = (cardsOf html batch, false) := by
  induction batch with
  | nil => rfl
  | cons a l ih =>
    have ha : cardIntact html a = true := h a (List.mem_cons_self a l)
    have hl := ih (fun x hx => h x (List.mem_cons_of_mem a hx))
    have ht : a.image.throws = false := by
      simp only [cardIntact, Bool.and_eq_true, Bool.not_eq_true'] at ha
      exact ha.1.1
    simp [renderLoop, ha, ht, hl, cardsOf]

/-- What `revealBatch` leaves alone: the catalog, the guard, the session
fields and the number of catalog requests in the log. -/
theorem revealBatch_frame (html : HtmlParser) (s : State) :
    (revealBatch html s).allNFTs = s.allNFTs ∧
    (revealBatch html s).loadingNFTs = s.loadingNFTs ∧
    (revealBatch html s).provider = s.provider ∧ (revealBatch html s).signer = s.signer ∧
    (revealBatch html s).userAddress = s.userAddress ∧
    (revealBatch html s).seaport = s.seaport ∧
    fetchCount (revealBatch html s) = fetchCount s := by
  unfold revealBatch
  split
  · split <;> exact ⟨rfl, rfl, rfl, rfl, rfl, rfl, rfl⟩
  · simp only
    split
    · refine ⟨rfl, rfl, rfl, rfl, rfl, rfl, ?_⟩
      simp [fetchCount, State.emit, List.countP_append, Effect.isFetch]
    · exact ⟨rfl, rfl, rfl, rfl, rfl, rfl, rfl⟩

theorem revealBatch_loadedCount (html : HtmlParser) (s : State) :
    (revealBatch html s).loadedCount
      = if s.loadedCount ≥ s.allNFTs.length then s.loadedCount
        else s.loadedCount + min BATCH_SIZE (s.allNFTs.length - s.loadedCount) := by
  unfold revealBatch
  split
  · split <;> rfl
  · simp only
    split <;> simp [State.emit, slice_length]

theorem revealBatch_allNFTs (html : HtmlParser) (s : State) :
    (revealBatch html s).allNFTs = s.allNFTs :=
  (revealBatch_frame html s).1

theorem revealBatch_le (html : HtmlParser) (s : State) (h : s.loadedCount ≤ s.allNFTs.length) :
    (revealBatch html s).loadedCount ≤ (revealBatch html s).allNFTs.length := by
  rw [revealBatch_loadedCount, revealBatch_allNFTs]
  split <;> omega

theorem revealBatch_mono (html : HtmlParser) (s : State) :
    s.loadedCount ≤ (revealBatch html s).loadedCount := by
  rw [revealBatch_loadedCount]
  split <;> omega

theorem FeedInv_init : FeedInv init := ⟨Nat.le_refl _, fun _ => rfl⟩

theorem FeedInv_start (html : HtmlParser) (s : State) (h : FeedInv s) :
    FeedInv (loadNFTs_start html s) := by
  unfold loadNFTs_start
  by_cases hl : s.loadingNFTs = true
  · simpa [hl] using h
  · by_cases he : s.allNFTs.length = 0
    · have h0 : s.loadedCount = 0 := by have := h.1; omega
      simp [hl, he, State.emit, FeedInv, h0]
    · simp only [hl, he, if_false, Bool.false_eq_true]
      refine ⟨?_, fun hc => by simp at hc⟩
      have := revealBatch_le html { s with loadingNFTs := true } h.1
      simpa using this

theorem FeedInv_settle (html : HtmlParser) (r : FetchResult) (s : State) (h : FeedInv s) :
    FeedInv (loadNFTs_settle html r s) := by
  unfold loadNFTs_settle
  by_cases hl : s.loadingNFTs = true
  · have h0 : s.loadedCount = 0 := h.2 hl
    rw [if_pos hl]
    cases r with
    | failed => exact ⟨by simpa [State.emit] using h.1, fun hc => by simp at hc⟩
    | ok nfts =>
      refine ⟨?_, fun hc => by simp at hc⟩
      have := revealBatch_le html { s with allNFTs := nfts.getD [] } (by simp [h0])
      simpa using this
  · simpa [hl] using h

theorem FeedInv_invalidate (html : HtmlParser) (s : State) : FeedInv (invalidateCache html s) :=
  FeedInv_start html _ ⟨Nat.zero_le _, fun _ => rfl⟩

theorem FeedInv_step (html : HtmlParser) (s : State) (e : FeedEvent) (h : FeedInv s) :
    FeedInv (feedStep html s e) := by
  cases e with
  | call => exact FeedInv_start html s h
  | settle r => exact FeedInv_settle html r s h
  | invalidate => exact FeedInv_invalidate html s

theorem FeedInv_run (html : HtmlParser) (evs : List FeedEvent) (s : State) (h : FeedInv s) :
    FeedInv (feedRun html evs s) := by
  induction evs generalizing s with
  | nil => exact h
  | cons e es ih => exact ih _ (FeedInv_step html s e h)

theorem loadNFTs_start_mono (html : HtmlParser) (s : State) :
    s.loadedCount ≤ (loadNFTs_start html s).loadedCount := by
  unfold loadNFTs_start
  by_cases hl : s.loadingNFTs = true
  · simp [hl]
  · by_cases he : s.allNFTs.length = 0
    · simp [hl, he, State.emit]
    · simp only [hl, he, if_false, Bool.false_eq_true]
      exact revealBatch_mono html { s with loadingNFTs := true }

theorem loadNFTs_settle_mono (html : HtmlParser) (r : FetchResult) (s : State) :
    s.loadedCount ≤ (loadNFTs_settle html r s).loadedCount := by
  unfold loadNFTs_settle
  by_cases hl : s.loadingNFTs = true
  · rw [if_pos hl]
    cases r with
    | failed => simp [State.emit]
    | ok nfts => exact revealBatch_mono html { s with allNFTs := nfts.getD [] }
  · simp [hl]

/-- C1: in every state reachable from the initial state by `loadNFTs` calls,
settling fetches (any answer, failures included) and cache invalidations, the
cursor `loadedCount` is at most the catalog length, and no step other than a
cache invalidation decreases it; this holds whatever the browser makes of the
card markup, a render loop that throws included. -/
theorem feed_cursor_invariant (html : HtmlParser) (evs : List FeedEvent) :
    (feedRun html evs init).loadedCount ≤ (feedRun html evs init).allNFTs.length ∧
    ∀ e : FeedEvent, e.isInvalidate = false →
      (feedRun html evs init).loadedCount
        ≤ (feedStep html (feedRun html evs init) e).loadedCount := by
  refine ⟨(FeedInv_run html evs init FeedInv_init).1, ?_⟩
  intro e he
  cases e with
  | call => exact loadNFTs_start_mono html _
  | settle r => exact loadNFTs_settle_mono html r _
  | invalidate => simp [FeedEvent.isInvalidate] at he

theorem feed_cursor_invariant_witness :
    (feedRun commentHtml [.call, .settle (.ok (some [commentEntry, plainEntry])), .invalidate,
        .call] init).loadedCount
      ≤ (feedRun commentHtml [.call, .settle (.ok (some [commentEntry, plainEntry])),
        .invalidate, .call] init).allNFTs.length :=
  (feed_cursor_invariant commentHtml
    [.call, .settle (.ok (some [commentEntry, plainEntry])), .invalidate, .call]).1

/-- C3: while the guard `loadingNFTs` is set, a call of `loadNFTs` returns at
once: the whole state, with the catalog, the cursor, the guard, the rendered
cards and the effect log (so no fetch), is unchanged. -/
theorem loadNFTs_in_flight_noop (html : HtmlParser) (s : State) (h : s.loadingNFTs = true) :
    loadNFTs_start html s = s ∧ ∀ r : FetchResult, loadNFTs html r s = s := by
  constructor
  · simp [loadNFTs_start, h]
  · intro r; simp [loadNFTs, h]

theorem loadNFTs_in_flight_noop_witness :
    (loadNFTs_start templateHtml init).loadingNFTs = true ∧
    (loadNFTs_start templateHtml (loadNFTs_start templateHtml init)
        = loadNFTs_start templateHtml init ∧
      ∀ r : FetchResult,
        loadNFTs templateHtml r (loadNFTs_start templateHtml init)
          = loadNFTs_start templateHtml init) :=
  ⟨rfl, loadNFTs_in_flight_noop templateHtml (loadNFTs_start templateHtml init) rfl⟩

theorem loadNFTs_first (html : HtmlParser) (r : FetchResult) (s : State)
    (hl : s.loadingNFTs = false) (he : s.allNFTs = []) :
    loadNFTs html r s
      = loadNFTs_settle html r ({ s with loadingNFTs := true }.emit .fetchNfts) := by
  simp [loadNFTs, loadNFTs_start, hl, he, State.emit]

theorem loadNFTs_cached (html : HtmlParser) (r : FetchResult) (s : State)
    (hl : s.loadingNFTs = false) (he : s.allNFTs ≠ []) :
    loadNFTs html r s
      = { revealBatch html { s with loadingNFTs := true } with loadingNFTs := false } := by
  have hlen : s.allNFTs.length ≠ 0 := by simpa using he
  simp [loadNFTs, loadNFTs_start, hl, hlen]

/-- What holds after a load against a catalog that is already cached, whatever
the render loop does. -/
theorem loadNFTs_cached_props (html : HtmlParser) (r : FetchResult) (s : State)
    (hl : s.loadingNFTs = false) (he : s.allNFTs ≠ []) :
    (loadNFTs html r s).allNFTs = s.allNFTs ∧
    (loadNFTs html r s).loadingNFTs = false ∧
    fetchCount (loadNFTs html r s) = fetchCount s ∧
    (loadNFTs html r s).loadedCount
      = (if s.loadedCount ≥ s.allNFTs.length then s.loadedCount
        else s.loadedCount + min BATCH_SIZE (s.allNFTs.length - s.loadedCount)) ∧
    (s.loadedCount ≥ s.allNFTs.length → loadNFTs html r s = s) := by
  rw [loadNFTs_cached html r s hl he]
  obtain ⟨f1, -, -, -, -, -, f7⟩ := revealBatch_frame html { s with loadingNFTs := true }
  refine ⟨f1, rfl, f7, revealBatch_loadedCount html { s with loadingNFTs := true }, ?_⟩
  intro hge
  have hpos : s.allNFTs.length ≠ 0 := by simpa using he
  have h0 : s.loadedCount ≠ 0 := by omega
  cases s
  simp only at hl hge h0
  subst hl
  simp [revealBatch, hge, h0]

theorem loadNFTs_init_props (html : HtmlParser) (nft : NFT) (more : List NFT) :
    (loadNFTs html (.ok (some (nft :: more))) init).allNFTs = nft :: more ∧
    (loadNFTs html (.ok (some (nft :: more))) init).loadingNFTs = false ∧
    fetchCount (loadNFTs html (.ok (some (nft :: more))) init) = 1 ∧
    (loadNFTs html (.ok (some (nft :: more))) init).loadedCount
      = min BATCH_SIZE (nft :: more).length := by
  rw [loadNFTs_first html _ _ rfl rfl]
  have e : loadNFTs_settle html (.ok (some (nft :: more)))
        ({ init with loadingNFTs := true }.emit .fetchNfts)
      = { revealBatch html
            { ({ init with loadingNFTs := true }.emit .fetchNfts) with allNFTs := nft :: more }
          with loadingNFTs := false } := rfl
  rw [e]
  obtain ⟨f1, -, -, -, -, -, f7⟩ := revealBatch_frame html
    { ({ init with loadingNFTs := true }.emit .fetchNfts) with allNFTs := nft :: more }
  refine ⟨f1, rfl, f7.trans rfl, ?_⟩
  show (revealBatch html _).loadedCount = _
  rw [revealBatch_loadedCount]
  simp [init, State.emit]

theorem loadSeq_snoc (html : HtmlParser) (rs : List FetchResult) (r : FetchResult) (s : State) :
    loadSeq html (rs ++ [r]) s = loadNFTs html r (loadSeq html rs s) := by
  simp [loadSeq, List.foldl_append]

theorem loadSeq_props (html : HtmlParser) (nft : NFT) (more : List NFT)
    (rs : List FetchResult) :
    (loadSeq html (.ok (some (nft :: more)) :: rs) init).allNFTs = nft :: more ∧
    (loadSeq html (.ok (some (nft :: more)) :: rs) init).loadingNFTs = false ∧
    fetchCount (loadSeq html (.ok (some (nft :: more)) :: rs) init) = 1 ∧
    (loadSeq html (.ok (some (nft :: more)) :: rs) init).loadedCount
      = min (BATCH_SIZE * (rs.length + 1)) (nft :: more).length := by
  induction rs using List.reverseRecOn with
  | nil =>
    obtain ⟨a, b, c, d⟩ := loadNFTs_init_props html nft more
    exact ⟨a, b, c, by rw [show loadSeq html [FetchResult.ok (some (nft :: more))] init
      = loadNFTs html (.ok (some (nft :: more))) init from rfl, d]; simp⟩
  | append_singleton rs r ih =>
    obtain ⟨a, b, c, d⟩ := ih
    rw [← List.cons_append, loadSeq_snoc]
    obtain ⟨a2, b2, c2, d2, -⟩ := loadNFTs_cached_props html r
      (loadSeq html (.ok (some (nft :: more)) :: rs) init) b (by rw [a]; simp)
    refine ⟨a2.trans a, b2, c2.trans c, ?_⟩
    rw [d2]
    simp only [d, a, List.length_append, List.length_singleton, List.length_cons,
      List.length_nil, BATCH_SIZE]
    split <;> omega

theorem loadNFTs_init (html : HtmlParser) (nft : NFT) (more : List NFT)
    (hi : ∀ x ∈ nft :: more, cardIntact html x = true) :
    loadNFTs html (.ok (some (nft :: more))) init = afterLoads html (nft :: more) 1 := by
  rw [loadNFTs_first html _ _ rfl rfl]
  have hr := renderLoop_intact html (slice (nft :: more) 0 (0 + BATCH_SIZE))
    (fun x hx => hi x (mem_of_mem_slice _ _ _ x hx))
  simp only [loadNFTs_settle, State.emit, init, if_true, Option.getD_some, revealBatch,
    afterLoads, hr]
  simp only [slice, BATCH_SIZE, List.length_cons, ge_iff_le, Nat.le_zero_eq,
    Nat.add_one_ne_zero, if_false, List.drop_zero, Nat.zero_add, Nat.sub_zero,
    List.nil_append, List.length_take, Nat.mul_one, Bool.false_eq_true, cardsOf,
    List.length_map]

theorem loadNFTs_afterLoads (html : HtmlParser) (r : FetchResult) (nft : NFT)
    (more : List NFT) (k : Nat) (hi : ∀ x ∈ nft :: more, cardIntact html x = true) :
    loadNFTs html r (afterLoads html (nft :: more) k)
      = afterLoads html (nft :: more) (k + 1) := by
  rw [loadNFTs_cached html _ _ rfl (by simp [afterLoads])]
  generalize hc : nft :: more = catalog at hi
  have hpos : 0 < catalog.length := by rw [← hc]; simp
  by_cases hk : catalog.length ≤ BATCH_SIZE * k
  · have e1 : min (BATCH_SIZE * k) catalog.length = catalog.length := by omega
    have e2 : min (BATCH_SIZE * (k + 1)) catalog.length = catalog.length := by
      rw [Nat.mul_succ]; omega
    have hne : catalog.length ≠ 0 := by omega
    have t1 : catalog.take (BATCH_SIZE * k) = catalog := List.take_of_length_le hk
    have t2 : catalog.take (BATCH_SIZE * (k + 1)) = catalog :=
      List.take_of_length_le (by rw [Nat.mul_succ]; omega)
    simp [revealBatch, afterLoads, init, e1, e2, hne, t1, t2]
  · have e1 : min (BATCH_SIZE * k) catalog.length = BATCH_SIZE * k := by omega
    have hlt : ¬ (BATCH_SIZE * k ≥ catalog.length) := by omega
    have e3 : BATCH_SIZE * k + min BATCH_SIZE (catalog.length - BATCH_SIZE * k)
        = min (BATCH_SIZE * (k + 1)) catalog.length := by
      rw [Nat.mul_succ]; omega
    have hr := renderLoop_intact html (slice catalog (BATCH_SIZE * k) (BATCH_SIZE * k + BATCH_SIZE))
      (fun x hx => hi x (mem_of_mem_slice _ _ _ x hx))
    simp only [revealBatch, afterLoads, init, e1, hlt, if_false, hr, Bool.false_eq_true]
    have hlen : (cardsOf html (slice catalog (BATCH_SIZE * k) (BATCH_SIZE * k + BATCH_SIZE))).length
        = min BATCH_SIZE (catalog.length - BATCH_SIZE * k) := by
      simp [cardsOf, slice_length]
    have hmk : cardsOf html (List.take (BATCH_SIZE * k) catalog)
        ++ cardsOf html (slice catalog (BATCH_SIZE * k) (BATCH_SIZE * k + BATCH_SIZE))
        = cardsOf html (List.take (BATCH_SIZE * (k + 1)) catalog) := by
      unfold cardsOf
      rw [← List.map_append, take_append_slice _ _ _ (Nat.le_add_right _ _), Nat.mul_succ]
    have hsl : (slice catalog (BATCH_SIZE * k) (BATCH_SIZE * k + BATCH_SIZE)).length
        = min BATCH_SIZE (catalog.length - BATCH_SIZE * k) := by
      simp [slice_length]
    rw [hsl, e3, hmk]

theorem loadSeq_afterLoads (html : HtmlParser) (nft : NFT) (more : List NFT)
    (rs : List FetchResult) (hi : ∀ x ∈ nft :: more, cardIntact html x = true) :
    loadSeq html (.ok (some (nft :: more)) :: rs) init
      = afterLoads html (nft :: more) (rs.length + 1) := by
  induction rs using List.reverseRecOn with
  | nil => exact loadNFTs_init html nft more hi
  | append_singleton rs r ih =>
    rw [← List.cons_append, loadSeq_snoc, ih, loadNFTs_afterLoads html r nft more _ hi,
      List.length_append]
    rfl

theorem take_min_length {α : Type} (xs : List α) (a : Nat) :
    xs.take (min a xs.length) = xs.take a := by
  by_cases h : a ≤ xs.length
  · rw [Nat.min_eq_left h]
  · rw [Nat.min_eq_right (by omega), List.take_of_length_le (Nat.le_refl _),
      List.take_of_length_le (by omega)]

theorem loadSeq_prev (html : HtmlParser) (nft : NFT) (more : List NFT)
    (rs : List FetchResult) (hi : ∀ x ∈ nft :: more, cardIntact html x = true) :
    (loadSeq html ((FetchResult.ok (some (nft :: more)) :: rs).dropLast) init).marketplace
        = cardsOf html ((nft :: more).take (BATCH_SIZE * rs.length)) := by
  induction rs using List.reverseRecOn with
  | nil => rfl
  | append_singleton rs r _ =>
    rw [← List.cons_append, List.dropLast_concat, loadSeq_afterLoads html nft more rs hi,
      List.length_append]
    rfl

theorem loadSeq_prev_fetchCount (html : HtmlParser) (nft : NFT) (more : List NFT)
    (rs : List FetchResult) (h : rs ≠ []) :
    fetchCount (loadSeq html ((FetchResult.ok (some (nft :: more)) :: rs).dropLast) init) = 1 := by
  induction rs using List.reverseRecOn with
  | nil => exact absurd rfl h
  | append_singleton rs r _ =>
    rw [← List.cons_append, List.dropLast_concat]
    exact (loadSeq_props html nft more rs).2.2.1

/-- C2, as the claim states it, fails: with a catalog of 15 entries whose
first entry has the name `<!--`, in a browser where that name comments out the
rest of the card, the first `loadNFTs` call moves the cursor to 12 but leaves a
single card in the marketplace, not the twelve cards of entries 0..11, and logs
the error thrown by the render loop. -/
theorem loadNFTs_comment_name_breaks_batch :
    (loadSeq commentHtml [.ok (some (commentEntry :: List.replicate 14 plainEntry))]
      init).loadedCount = 12 ∧
    (loadSeq commentHtml [.ok (some (commentEntry :: List.replicate 14 plainEntry))]
      init).marketplace = [Node.card (renderCard commentHtml commentEntry)] ∧
    (cardsOf commentHtml (slice (commentEntry :: List.replicate 14 plainEntry) 0 12)).length
      = 12 ∧
    (loadSeq commentHtml [.ok (some (commentEntry :: List.replicate 14 plainEntry))]
      init).log = [Effect.fetchNfts, Effect.consoleError "Load NFTs Error:"] := by
  have hc : cardIntact commentHtml commentEntry = false := by decide
  have ht : commentEntry.image.throws = false := rfl
  have e : loadSeq commentHtml [.ok (some (commentEntry :: List.replicate 14 plainEntry))] init
      = loadNFTs commentHtml (.ok (some (commentEntry :: List.replicate 14 plainEntry))) init :=
    rfl
  rw [e, loadNFTs_first commentHtml _ _ rfl rfl]
  refine ⟨?_, ?_, rfl, ?_⟩ <;>
    simp [loadNFTs_settle, State.emit, init, revealBatch, slice, BATCH_SIZE, renderLoop, hc,
      ht, List.replicate]

/-- C2 (amended): from the initial state, with the backend answering a
catalog of `n ≥ 1` entries, after `k ≥ 1` sequential `loadNFTs` calls the cursor
is `min (12 k) n`, the log holds exactly one catalog request (made by the first
call), and once `12 k ≥ n` a further call changes nothing at all.  When the
browser finds both buttons in the card of every entry, so that no render step
throws, the `k`-th call appends exactly the cards of the entries at indices
`[min (12 (k-1)) n, min (12 k) n)`, in catalog order, and the log is that single
request; for `n = 15` the first call then reveals entries 0..11 (cursor 12), the
second 12..14 (cursor 15), and the third leaves the whole state unchanged. -/
theorem loadNFTs_batches (html : HtmlParser) (nft : NFT) (more : List NFT)
    (rs : List FetchResult) :
    (loadSeq html (.ok (some (nft :: more)) :: rs) init).loadedCount
        = min (12 * (rs.length + 1)) (nft :: more).length ∧
    fetchCount (loadSeq html (.ok (some (nft :: more)) :: rs) init) = 1 ∧
    (rs ≠ [] →
      fetchCount (loadSeq html ((FetchResult.ok (some (nft :: more)) :: rs).dropLast) init)
        = 1) ∧
    (12 * (rs.length + 1) ≥ (nft :: more).length → ∀ r : FetchResult,
      loadNFTs html r (loadSeq html (.ok (some (nft :: more)) :: rs) init)
        = loadSeq html (.ok (some (nft :: more)) :: rs) init) ∧
    ((∀ x ∈ nft :: more, cardIntact html x = true) →
      (loadSeq html (.ok (some (nft :: more)) :: rs) init).marketplace
        = (loadSeq html ((FetchResult.ok (some (nft :: more)) :: rs).dropLast)
            init).marketplace
          ++ cardsOf html (slice (nft :: more) (min (12 * rs.length) (nft :: more).length)
              (min (12 * (rs.length + 1)) (nft :: more).length)) ∧
      (loadSeq html (.ok (some (nft :: more)) :: rs) init).log = [Effect.fetchNfts] ∧
      ((nft :: more).length = 15 → ∀ r2 r3 : FetchResult,
        (loadSeq html [.ok (some (nft :: more))] init).loadedCount = 12 ∧
        (loadSeq html [.ok (some (nft :: more))] init).marketplace
          = cardsOf html (slice (nft :: more) 0 12) ∧
        (loadSeq html [.ok (some (nft :: more)), r2] init).loadedCount = 15 ∧
        (loadSeq html [.ok (some (nft :: more)), r2] init).marketplace
          = cardsOf html (slice (nft :: more) 0 12)
            ++ cardsOf html (slice (nft :: more) 12 15) ∧
        loadSeq html [.ok (some (nft :: more)), r2, r3] init
          = loadSeq html [.ok (some (nft :: more)), r2] init)) := by
  obtain ⟨pa, pb, pc, pd⟩ := loadSeq_props html nft more rs
  refine ⟨pd, pc, loadSeq_prev_fetchCount html nft more rs, ?_, ?_⟩
  · intro hge r
    refine (loadNFTs_cached_props html r _ pb (by rw [pa]; simp)).2.2.2.2 ?_
    rw [pd, pa]
    show min (12 * (rs.length + 1)) (nft :: more).length ≥ (nft :: more).length
    omega
  · intro hi
    have hp := loadSeq_prev html nft more rs hi
    refine ⟨?_, ?_, ?_⟩
    · rw [hp, loadSeq_afterLoads html nft more rs hi]
      show cardsOf html _ = _
      unfold cardsOf
      rw [← List.map_append, ← take_min_length _ (BATCH_SIZE * rs.length)]
      show _ = List.map _ (List.take (min (12 * rs.length) (nft :: more).length) (nft :: more)
        ++ slice (nft :: more) (min (12 * rs.length) (nft :: more).length)
          (min (12 * (rs.length + 1)) (nft :: more).length))
      rw [take_append_slice _ _ _ (by omega), take_min_length]
      rfl
    · rw [loadSeq_afterLoads html nft more rs hi]; rfl
    · intro h15 r2 r3
      have e1 := loadSeq_afterLoads html nft more [] hi
      have e2 := loadSeq_afterLoads html nft more [r2] hi
      have e3 := loadSeq_afterLoads html nft more [r2, r3] hi
      rw [e1, e2, e3]
      have t12 : (nft :: more).take 12 = slice (nft :: more) 0 12 := rfl
      have t24 : (nft :: more).take 24 = (nft :: more) := List.take_of_length_le (by omega)
      have t36 : (nft :: more).take 36 = (nft :: more) := List.take_of_length_le (by omega)
      have hs : slice (nft :: more) 0 12 ++ slice (nft :: more) 12 15 = nft :: more := by
        rw [← t12, take_append_slice _ _ _ (by omega)]
        exact List.take_of_length_le (by omega)
      refine ⟨?_, ?_, ?_, ?_, ?_⟩
      · show min (12 * 1) (nft :: more).length = 12
        omega
      · rfl
      · show min (12 * 2) (nft :: more).length = 15
        omega
      · show cardsOf html ((nft :: more).take 24) = _
        rw [t24]; unfold cardsOf; rw [← List.map_append, hs]
      · show afterLoads html (nft :: more) 3 = afterLoads html (nft :: more) 2
        unfold afterLoads
        have a : min (BATCH_SIZE * 3) (nft :: more).length
            = min (BATCH_SIZE * 2) (nft :: more).length := by
          unfold BATCH_SIZE; omega
        have b : (nft :: more).take (BATCH_SIZE * 3) = (nft :: more).take (BATCH_SIZE * 2) := by
          show (nft :: more).take 36 = (nft :: more).take 24
          rw [t24, t36]
        rw [a, b]

theorem loadNFTs_batches_witness :
    (loadSeq templateHtml [.ok (some (plainEntry :: List.replicate 14 plainEntry)), .failed]
        init).loadedCount = 15 ∧
    loadSeq templateHtml
        [.ok (some (plainEntry :: List.replicate 14 plainEntry)), .failed, .failed] init
      = loadSeq templateHtml
        [.ok (some (plainEntry :: List.replicate 14 plainEntry)), .failed] init :=
  have hi : ∀ x ∈ plainEntry :: List.replicate 14 plainEntry,
      cardIntact templateHtml x = true := by
    intro x hx
    have e : x = plainEntry := by
      rcases List.mem_cons.1 hx with h | h
      · exact h
      · exact (List.mem_replicate.1 h).2
    rw [e]; rfl
  ⟨(((loadNFTs_batches templateHtml plainEntry (List.replicate 14 plainEntry) []).2.2.2.2
      hi).2.2 rfl .failed .failed).2.2.1,
   (((loadNFTs_batches templateHtml plainEntry (List.replicate 14 plainEntry) []).2.2.2.2
      hi).2.2 rfl .failed .failed).2.2.2.2⟩

theorem loadNFTs_empty (html : HtmlParser) (r : FetchResult) (s : State)
    (hr : r.isEmpty = true)
    (h1 : s.allNFTs = []) (h2 : s.loadedCount = 0) (h3 : s.loadingNFTs = false) :
    loadNFTs html r s
      = { s with marketplace := [Node.noItems], log := s.log ++ [Effect.fetchNfts] } := by
  rw [loadNFTs_first html r s h3 h1]
  cases s
  simp only at h1 h2 h3
  subst h1 h2 h3
  match r, hr with
  | .ok none, _ => simp [loadNFTs_settle, State.emit, revealBatch]
  | .ok (some []), _ => simp [loadNFTs_settle, State.emit, revealBatch]

theorem loadSeq_empty (html : HtmlParser) (rs : List FetchResult) (s : State)
    (hrs : ∀ x ∈ rs, FetchResult.isEmpty x = true)
    (h1 : s.allNFTs = []) (h2 : s.loadedCount = 0) (h3 : s.loadingNFTs = false) :
    (loadSeq html rs s).allNFTs = [] ∧ (loadSeq html rs s).loadedCount = 0 ∧
      (loadSeq html rs s).loadingNFTs = false ∧
      (rs ≠ [] → (loadSeq html rs s).marketplace = [Node.noItems]) := by
  induction rs using List.reverseRecOn with
  | nil => exact ⟨h1, h2, h3, fun h => absurd rfl h⟩
  | append_singleton rs r ih =>
    obtain ⟨a, b, c, -⟩ := ih (fun x hx => hrs x (List.mem_append_left _ hx))
    rw [loadSeq_snoc, loadNFTs_empty html r _ (hrs r (by simp)) a b c]
    exact ⟨a, b, c, fun _ => rfl⟩

/-- C9: when the catalog is empty, the cursor is 0 and every backend answer
is an empty catalog, one `loadNFTs` call leaves the marketplace holding exactly
the "no items" placeholder and no card, and so does any longer sequence of
calls; the cursor stays 0. -/
theorem empty_catalog_placeholder (html : HtmlParser) (s : State) (r : FetchResult)
    (rs : List FetchResult)
    (h1 : s.allNFTs = []) (h2 : s.loadedCount = 0) (h3 : s.loadingNFTs = false)
    (hrs : ∀ x ∈ r :: rs, FetchResult.isEmpty x = true) :
    (loadNFTs html r s).marketplace = [Node.noItems] ∧ (loadNFTs html r s).loadedCount = 0 ∧
    (loadSeq html (r :: rs) s).marketplace = [Node.noItems] ∧
    (loadSeq html (r :: rs) s).loadedCount = 0 := by
  have hr : r.isEmpty = true := hrs r (by simp)
  have hall := loadSeq_empty html (r :: rs) s hrs h1 h2 h3
  refine ⟨?_, ?_, hall.2.2.2 (by simp), hall.2.1⟩
  · rw [loadNFTs_empty html r s hr h1 h2 h3]
  · rw [loadNFTs_empty html r s hr h1 h2 h3]; exact h2

theorem empty_catalog_placeholder_witness :
    (loadNFTs templateHtml (.ok (some [])) init).marketplace = [Node.noItems] ∧
    (loadNFTs templateHtml (.ok (some [])) init).loadedCount = 0 ∧
    (loadSeq templateHtml [.ok (some []), .ok none, .ok (some [])] init).marketplace
      = [Node.noItems] ∧
    (loadSeq templateHtml [.ok (some []), .ok none, .ok (some [])] init).loadedCount = 0 :=
  empty_catalog_placeholder templateHtml init (.ok (some [])) [.ok none, .ok (some [])]
    rfl rfl rfl
    (by intro x hx; simp at hx; rcases hx with h | h | h <;> subst h <;> rfl)

/-! ## Connection manager: lemmas -/

theorem loadNFTs_session (html : HtmlParser) (r : FetchResult) (s : State) :
    (loadNFTs html r s).provider = s.provider ∧ (loadNFTs html r s).signer = s.signer ∧
    (loadNFTs html r s).userAddress = s.userAddress ∧
    (loadNFTs html r s).seaport = s.seaport := by
  by_cases hl : s.loadingNFTs = true
  · simp [loadNFTs, hl]
  · have hl' : s.loadingNFTs = false := by simpa using hl
    by_cases he : s.allNFTs = []
    · rw [loadNFTs_first html r s hl' he]
      cases r with
      | failed => exact ⟨rfl, rfl, rfl, rfl⟩
      | ok nfts =>
        simp only [loadNFTs_settle, State.emit, if_true]
        obtain ⟨-, -, f3, f4, f5, f6, -⟩ := revealBatch_frame html
          { s with loadingNFTs := true, log := s.log ++ [Effect.fetchNfts],
                   allNFTs := nfts.getD [] }
        exact ⟨f3, f4, f5, f6⟩
    · rw [loadNFTs_cached html r s hl' he]
      obtain ⟨-, -, f3, f4, f5, f6, -⟩ := revealBatch_frame html { s with loadingNFTs := true }
      exact ⟨f3, f4, f5, f6⟩

theorem connectFinish_session (html : HtmlParser) (env : ConnectEnv) (g : Signer)
    (a : String) (s : State) :
    (connectFinish html env g a s).provider = s.provider ∧
    (connectFinish html env g a s).signer = s.signer ∧
    (connectFinish html env g a s).userAddress = s.userAddress ∧
    (connectFinish html env g a s).seaport
      = some { signer := g, contractAddress := SEAPORT_CONTRACT_ADDRESS } := by
  unfold connectFinish
  obtain ⟨h1, h2, h3, h4⟩ := loadNFTs_session html env.nfts (notify "Cüzdan qoşuldu!" 3000
    { s with
      seaport := some { signer := g, contractAddress := SEAPORT_CONTRACT_ADDRESS }
      connectBtnDisplay := "none"
      disconnectBtnDisplay := "inline-block"
      addrSpan := shortAddress a })
  exact ⟨h1, h2, h3, h4⟩

theorem connectFinish_full (html : HtmlParser) (env : ConnectEnv) (g : Signer) (a : String)
    (s : State)
    (h1 : s.provider.isSome = true) (h2 : s.signer.isSome = true)
    (h3 : s.userAddress.isSome = true) :
    (connectFinish html env g a s).sessionFull = true := by
  obtain ⟨e1, e2, e3, e4⟩ := connectFinish_session html env g a s
  simp [State.sessionFull, e1, e2, e3, e4, h1, h2, h3]

theorem guarded_of_full (s : State) (h : s.sessionFull = true) : s.sessionGuarded := by
  intro _
  simp only [State.sessionFull, Bool.and_eq_true] at h
  exact ⟨h.1.1.1, h.1.1.2, h.1.2⟩

theorem connectWallet_guarded (html : HtmlParser) (env : ConnectEnv) (s : State)
    (h : s.sessionGuarded) : (connectWallet html env s).sessionGuarded := by
  unfold connectWallet
  by_cases h0 : env.hasEthereum = true
  · simp only [h0, Bool.not_true, Bool.false_eq_true, if_false]
    split
    · intro hs
      have := h hs
      exact ⟨rfl, this.2.1, this.2.2⟩
    · split
      · intro hs
        have := h hs
        exact ⟨rfl, rfl, this.2.2⟩
      · split
        · intro _; exact ⟨rfl, rfl, rfl⟩
        · split
          · split
            · intro _; exact ⟨rfl, rfl, rfl⟩
            · exact guarded_of_full _ (connectFinish_full _ _ _ _ _ rfl rfl rfl)
          · exact guarded_of_full _ (connectFinish_full _ _ _ _ _ rfl rfl rfl)
  · have h0' : env.hasEthereum = false := by simpa using h0
    simpa [h0', State.emit] using h

theorem sessionRun_guarded (html : HtmlParser) (evs : List SessionEvent) (s : State)
    (h : s.sessionGuarded) : (sessionRun html evs s).sessionGuarded := by
  induction evs generalizing s with
  | nil => exact h
  | cons e es ih =>
    refine ih _ ?_
    cases e with
    | connect env => exact connectWallet_guarded html env s h
    | disconnect =>
      intro hs; exact absurd hs (by simp [sessionStep, disconnect, notify, State.emit])

/-- C6, as the claim states it, fails: on a wallet set to another network
that accepts the add-network request, `connectWallet` returns with provider,
signer and address populated and the order client still null. -/
theorem connect_other_network_not_all_or_nothing :
    (connectWallet templateHtml otherNetworkEnv init).provider.isSome = true ∧
    (connectWallet templateHtml otherNetworkEnv init).signer.isSome = true ∧
    (connectWallet templateHtml otherNetworkEnv init).userAddress.isSome = true ∧
    (connectWallet templateHtml otherNetworkEnv init).seaport.isSome = false ∧
    (connectWallet templateHtml otherNetworkEnv init).sessionAllOrNothing = false := by
  refine ⟨rfl, rfl, rfl, rfl, rfl⟩

/-- C6 (amended): for handler runs that do not overlap, in every state reached
from the initial one by `connectWallet` calls and disconnects: a populated
order client comes with provider, signer and address populated; the disconnect
handler leaves all four fields null; a `connectWallet` call that reaches the
Seaport construction (wallet present, the account, address and network requests
succeed, and the network is the required one or the add-network request fails)
leaves all four populated; and the early return after a successful add-network
request leaves provider, signer and address populated and the order client as
it was. -/
theorem session_fields (html : HtmlParser) (evs : List SessionEvent) :
    (sessionRun html evs init).sessionGuarded ∧
    (disconnect (sessionRun html evs init)).sessionNull = true ∧
    (∀ (env : ConnectEnv) (u : Unit) (a : String) (c : Nat),
      env.hasEthereum = true → env.requestAccounts = .ok u → env.getAddress = .ok a →
      env.getNetwork = .ok c → (c = APECHAIN_ID ∨ ∃ e, env.addEthereumChain = .error e) →
      (connectWallet html env (sessionRun html evs init)).sessionFull = true) ∧
    (∀ (env : ConnectEnv) (u v : Unit) (a : String) (c : Nat),
      env.hasEthereum = true → env.requestAccounts = .ok u → env.getAddress = .ok a →
      env.getNetwork = .ok c → c ≠ APECHAIN_ID → env.addEthereumChain = .ok v →
      (connectWallet html env (sessionRun html evs init)).provider.isSome = true ∧
      (connectWallet html env (sessionRun html evs init)).signer.isSome = true ∧
      (connectWallet html env (sessionRun html evs init)).userAddress.isSome = true ∧
      (connectWallet html env (sessionRun html evs init)).seaport
        = (sessionRun html evs init).seaport) := by
  refine ⟨sessionRun_guarded html evs init (fun h => absurd h (by simp [init])), rfl, ?_, ?_⟩
  · intro env u a c h0 h1 h2 h3 h4
    unfold connectWallet
    simp only [h0, h1, h2, h3, Bool.not_true, Bool.false_eq_true, if_false]
    by_cases hc : c = APECHAIN_ID
    · simp only [hc, ne_eq, not_true_eq_false, if_false]
      exact connectFinish_full _ _ _ _ _ rfl rfl rfl
    · rcases h4 with h4 | ⟨e, he⟩
      · exact absurd h4 hc
      · simp only [hc, ne_eq, not_false_eq_true, if_true, he]
        exact connectFinish_full _ _ _ _ _ rfl rfl rfl
  · intro env u v a c h0 h1 h2 h3 hc h4
    unfold connectWallet
    simp only [h0, h1, h2, h3, h4, Bool.not_true, Bool.false_eq_true, if_false, hc, ne_eq,
      not_false_eq_true, if_true]
    exact ⟨rfl, rfl, rfl, rfl⟩

theorem session_fields_witness :
    (connectWallet templateHtml { otherNetworkEnv with getNetwork := .ok APECHAIN_ID }
      (sessionRun templateHtml [.connect otherNetworkEnv, .disconnect] init)).sessionFull
        = true :=
  (session_fields templateHtml [.connect otherNetworkEnv, .disconnect]).2.2.1
    { otherNetworkEnv with getNetwork := .ok APECHAIN_ID } ()
    "0x00000000000000000000000000000000000000AA" APECHAIN_ID rfl rfl rfl rfl (Or.inl rfl)

/-! ## Buy path: order normalization -/

theorem truthy_of_get_truthy (o : JsVal) (k : String) (h : (o.get k).truthy = true) :
    o.truthy = true := by
  cases o <;> first | rfl | simp [JsVal.get, JsVal.truthy] at h

theorem not_str_of_get_truthy (o : JsVal) (k : String) (h : (o.get k).truthy = true) :
    ∀ t, o ≠ .str t := by
  intro t e
  subst e
  simp [JsVal.get, JsVal.truthy] at h

theorem normalizeOrder_of_value (parse : String → Option JsVal) (nft : NFT) (w : JsVal)
    (hw : (∀ t, w ≠ .str t) ∧ storedOrder nft = w ∨
      ∃ t, storedOrder nft = .str t ∧ parse t = some w) :
    normalizeOrder parse nft
      = if !(unwrapOnce w).truthy || !((unwrapOnce w).get "parameters").truthy then .invalid
        else .usable (unwrapOnce w) := by
  have hu : (if w.truthy && (w.get "order").truthy then w.get "order" else w) = unwrapOnce w := by
    unfold unwrapOnce
    by_cases ho : (w.get "order").truthy = true
    · simp [ho, truthy_of_get_truthy w "order" ho]
    · simp [ho]
  rcases hw with ⟨hns, hst⟩ | ⟨t, hst, hp⟩
  · unfold normalizeOrder
    rw [hst]
    cases w with
    | str t => exact absurd rfl (hns t)
    | _ => simp only [hu]
  · unfold normalizeOrder
    rw [hst]
    simp only [hp, hu]

theorem normalizeOrder_usable (parse : String → Option JsVal) (nft : NFT) (o : JsVal)
    (hp : (o.get "parameters").truthy = true) (ho : (o.get "order").truthy = false)
    (hw : (storedOrder nft = o) ∨ (∃ t, storedOrder nft = .str t ∧ parse t = some o) ∨
      storedOrder nft = .obj [("order", o)]) :
    normalizeOrder parse nft = .usable o := by
  have hot : o.truthy = true := truthy_of_get_truthy o "parameters" hp
  rcases hw with h | h | h
  · rw [normalizeOrder_of_value parse nft o (Or.inl ⟨not_str_of_get_truthy o _ hp, h⟩)]
    simp [unwrapOnce, ho, hp, hot]
  · rw [normalizeOrder_of_value parse nft o (Or.inr h)]
    simp [unwrapOnce, ho, hp, hot]
  · rw [normalizeOrder_of_value parse nft (.obj [("order", o)])
      (Or.inl ⟨fun t e => (by cases e), h⟩)]
    have e : (JsVal.obj [("order", o)]).get "order" = o := by
      simp [JsVal.get, List.lookup]
    simp [unwrapOnce, e, hp, hot]

theorem mem_log_emit (s : State) (e x : Effect) (h : x ∈ s.log) : x ∈ (s.emit e).log := by
  simp [State.emit, h]

theorem mem_log_buyFail (err : JsError) (s : State) (x : Effect) (h : x ∈ s.log) :
    x ∈ (buyFail err s).log := by
  simp [buyFail, State.emit, h]

theorem mem_log_buyNotifyBackend (env : BuyEnv) (nft : NFT) (b : String) (s : State)
    (x : Effect) (h : x ∈ s.log) : x ∈ (buyNotifyBackend env nft b s).log := by
  unfold buyNotifyBackend
  simp only
  split
  · exact mem_log_buyFail _ _ _ (by simp [State.emit, notify, h])
  · simp [State.emit, notify, h]

theorem buyFulfill_calls_fulfillOrder (env : BuyEnv) (nft : NFT) (o : JsVal) (s : State)
    (buyer : String) (hb : env.getAddress = .ok buyer) :
    Effect.fulfillOrder o buyer ∈ (buyFulfill env nft o s).log := by
  have base : ∀ t : State, Effect.fulfillOrder o buyer ∈ (t.emit (.fulfillOrder o buyer)).log := by
    intro t; simp [State.emit]
  unfold buyFulfill
  simp only [hb]
  split
  · exact mem_log_buyFail _ _ _ (base _)
  · exact mem_log_buyFail _ _ _ (base _)
  · split
    · exact mem_log_buyFail _ _ _ (mem_log_emit _ _ _ (base _))
    · exact mem_log_buyNotifyBackend _ _ _ _ _ (mem_log_emit _ _ _ (base _))
    · split
      · exact mem_log_buyFail _ _ _ (mem_log_emit _ _ _ (mem_log_emit _ _ _ (base _)))
      · exact mem_log_buyNotifyBackend _ _ _ _ _
          (mem_log_emit _ _ _ (mem_log_emit _ _ _ (base _)))

/-- C4, as the claim states it, fails: an order object that has a
`parameters` field and also a truthy `order` field of its own is replaced by
that inner field when given plainly (and then rejected), while the same object
inside one envelope is passed on as it is; and an order object whose
`parameters` field is null is rejected. -/
theorem normalizeOrder_own_order_field :
    orderWithOrderField.hasField "parameters" = true ∧
    normalizeOrder parseOneDocument (entryWithOrder orderWithOrderField) = .invalid ∧
    normalizeOrder parseOneDocument (entryWithOrder (.obj [("order", orderWithOrderField)]))
      = .usable orderWithOrderField ∧
    (JsVal.obj [("parameters", .null)]).hasField "parameters" = true ∧
    normalizeOrder parseOneDocument (entryWithOrder (.obj [("parameters", .null)]))
      = .invalid := by
  refine ⟨rfl, ?_, ?_, rfl, ?_⟩
  · simp [normalizeOrder, storedOrder, entryWithOrder, orderWithOrderField, JsVal.isNullish,
      JsVal.get, JsVal.truthy, List.lookup]
  · simp [normalizeOrder, storedOrder, entryWithOrder, orderWithOrderField, JsVal.isNullish,
      JsVal.get, JsVal.truthy, List.lookup]
  · simp [normalizeOrder, storedOrder, entryWithOrder, JsVal.isNullish,
      JsVal.get, JsVal.truthy, List.lookup]

/-- C4 (amended): for every order object `o` whose `parameters` field is
truthy and which has no truthy `order` field of its own, the normalization at
the start of `buyNFT` yields `o` itself whether the entry stores `o` as a plain
object, as a string that `JSON.parse` decodes to `o`, or inside one envelope
`{order: o}`; with an active session and the buyer address available, `buyNFT`
then calls `fulfillOrder` with `o` in all three cases. -/
theorem normalizeOrder_three_forms (env : BuyEnv) (s : State) (buyer : String)
    (plain encoded wrapped : NFT) (o : JsVal) (t : String)
    (hp : (o.get "parameters").truthy = true) (ho : (o.get "order").truthy = false)
    (h1 : storedOrder plain = o)
    (h2 : storedOrder encoded = .str t) (ht : env.JSONparse t = some o)
    (h3 : storedOrder wrapped = .obj [("order", o)])
    (hs : s.signer.isSome = true) (hq : s.seaport.isSome = true)
    (hb : env.getAddress = .ok buyer) :
    normalizeOrder env.JSONparse plain = .usable o ∧
    normalizeOrder env.JSONparse encoded = .usable o ∧
    normalizeOrder env.JSONparse wrapped = .usable o ∧
    Effect.fulfillOrder o buyer ∈ (buyNFT env plain s).log ∧
    Effect.fulfillOrder o buyer ∈ (buyNFT env encoded s).log ∧
    Effect.fulfillOrder o buyer ∈ (buyNFT env wrapped s).log := by
  have n1 := normalizeOrder_usable env.JSONparse plain o hp ho (Or.inl h1)
  have n2 := normalizeOrder_usable env.JSONparse encoded o hp ho (Or.inr (Or.inl ⟨t, h2, ht⟩))
  have n3 := normalizeOrder_usable env.JSONparse wrapped o hp ho (Or.inr (Or.inr h3))
  have hg : (s.signer.isNone || s.seaport.isNone) = false := by
    cases hsig : s.signer <;> cases hsea : s.seaport <;> simp_all
  refine ⟨n1, n2, n3, ?_, ?_, ?_⟩
  · unfold buyNFT
    simp only [hg, n1, Bool.false_eq_true, if_false]
    exact buyFulfill_calls_fulfillOrder env _ o _ buyer hb
  · unfold buyNFT
    simp only [hg, n2, Bool.false_eq_true, if_false]
    exact buyFulfill_calls_fulfillOrder env _ o _ buyer hb
  · unfold buyNFT
    simp only [hg, n3, Bool.false_eq_true, if_false]
    exact buyFulfill_calls_fulfillOrder env _ o _ buyer hb

theorem normalizeOrder_three_forms_witness :
    normalizeOrder happyBuyEnv.JSONparse (entryWithOrder plainOrder) = .usable plainOrder ∧
    normalizeOrder happyBuyEnv.JSONparse (entryWithOrder (.str "plainOrder.json"))
      = .usable plainOrder ∧
    normalizeOrder happyBuyEnv.JSONparse (entryWithOrder (.obj [("order", plainOrder)]))
      = .usable plainOrder ∧
    Effect.fulfillOrder plainOrder "0x00000000000000000000000000000000000000aa"
      ∈ (buyNFT happyBuyEnv (entryWithOrder plainOrder) connectedState).log ∧
    Effect.fulfillOrder plainOrder "0x00000000000000000000000000000000000000aa"
      ∈ (buyNFT happyBuyEnv (entryWithOrder (.str "plainOrder.json")) connectedState).log ∧
    Effect.fulfillOrder plainOrder "0x00000000000000000000000000000000000000aa"
      ∈ (buyNFT happyBuyEnv (entryWithOrder (.obj [("order", plainOrder)])) connectedState).log :=
  normalizeOrder_three_forms happyBuyEnv connectedState
    "0x00000000000000000000000000000000000000aa"
    (entryWithOrder plainOrder) (entryWithOrder (.str "plainOrder.json"))
    (entryWithOrder (.obj [("order", plainOrder)])) plainOrder "plainOrder.json"
    (by simp [plainOrder, JsVal.get, JsVal.truthy, List.lookup])
    (by simp [plainOrder, JsVal.get, JsVal.truthy, List.lookup])
    rfl rfl (by simp [happyBuyEnv, parseOneDocument]) rfl rfl rfl rfl

/-! ## Buy path: rejection of bad order data -/

theorem get_falsy_of_not_hasField (v : JsVal) (k : String) (h : v.hasField k = false) :
    (v.get k).truthy = false := by
  cases v with
  | obj fields =>
    simp only [JsVal.hasField] at h
    cases hl : fields.lookup k with
    | none => simp [JsVal.get, hl, JsVal.truthy]
    | some x => simp [hl] at h
  | _ => rfl

theorem normalizeOrder_nullish (parse : String → Option JsVal) (nft : NFT)
    (h : (storedOrder nft).isNullish = true) : normalizeOrder parse nft = .invalid := by
  cases hv : storedOrder nft with
  | undefined => simp [normalizeOrder, hv, JsVal.truthy]
  | null => simp [normalizeOrder, hv, JsVal.truthy]
  | _ => rw [hv] at h; simp [JsVal.isNullish] at h

theorem buyNFT_of_invalid (env : BuyEnv) (nft : NFT) (s : State)
    (hs : s.signer.isSome = true) (hq : s.seaport.isSome = true)
    (h : normalizeOrder env.JSONparse nft = .invalid) : buyNFT env nft s = orderRejected s := by
  have hg : (s.signer.isNone || s.seaport.isNone) = false := by
    cases hsig : s.signer <;> cases hsea : s.seaport <;> simp_all
  unfold buyNFT
  simp [hg, h, orderRejected, notify, State.emit]

theorem abortsQuietly_orderRejected (s : State) : AbortsQuietly s (orderRejected s) := by
  refine ⟨[Effect.notify "Alış hazırlanır..." 3000], "Bu NFT-nin satış məlumatları xətalıdır!",
    by simp [orderRejected], ?_⟩
  intro e he
  simp only [List.cons_append, List.nil_append, List.mem_cons, List.mem_singleton,
    List.not_mem_nil, or_false] at he
  rcases he with h | h <;> subst h <;> exact ⟨rfl, rfl, rfl⟩

theorem abortsQuietly_parseRejected (s : State) : AbortsQuietly s (parseRejected s) := by
  refine ⟨[Effect.notify "Alış hazırlanır..." 3000, Effect.consoleError "Order parse error"],
    "Order parse xətası", by simp [parseRejected], ?_⟩
  intro e he
  simp only [List.cons_append, List.nil_append, List.mem_cons, List.mem_singleton,
    List.not_mem_nil, or_false] at he
  rcases he with h | h | h <;> subst h <;> exact ⟨rfl, rfl, rfl⟩

/-- C5: with an active session, `buyNFT` ends with an alert after effects that
are no SDK, chain or backend call (only the log changes) whenever the stored
order is absent, or is a string that `JSON.parse` rejects, or the value left
after parsing a string and unwrapping one envelope layer (a truthy `order`
field), if there is one, has no `parameters` field; an order inside two
envelope layers is unwrapped once only and rejected. -/
theorem buyNFT_rejects_bad_order (env : BuyEnv) (nft : NFT) (s : State)
    (hs : s.signer.isSome = true) (hq : s.seaport.isSome = true) :
    ((storedOrder nft).isNullish = true → buyNFT env nft s = orderRejected s) ∧
    (∀ t, storedOrder nft = .str t → env.JSONparse t = none →
      buyNFT env nft s = parseRejected s) ∧
    (∀ w, ((∀ t, w ≠ .str t) ∧ storedOrder nft = w ∨
        ∃ t, storedOrder nft = .str t ∧ env.JSONparse t = some w) →
      (unwrapOnce w).hasField "parameters" = false → buyNFT env nft s = orderRejected s) ∧
    (∀ o, storedOrder nft = .obj [("order", .obj [("order", o)])] →
      unwrapOnce (.obj [("order", .obj [("order", o)])]) = .obj [("order", o)] ∧
      buyNFT env nft s = orderRejected s) ∧
    AbortsQuietly s (orderRejected s) ∧ AbortsQuietly s (parseRejected s) := by
  have hg : (s.signer.isNone || s.seaport.isNone) = false := by
    cases hsig : s.signer <;> cases hsea : s.seaport <;> simp_all
  have key : ∀ w, ((∀ t, w ≠ .str t) ∧ storedOrder nft = w ∨
        ∃ t, storedOrder nft = .str t ∧ env.JSONparse t = some w) →
      (unwrapOnce w).hasField "parameters" = false → buyNFT env nft s = orderRejected s := by
    intro w hw hf
    apply buyNFT_of_invalid env nft s hs hq
    rw [normalizeOrder_of_value env.JSONparse nft w hw]
    simp [get_falsy_of_not_hasField _ _ hf]
  refine ⟨?_, ?_, key, ?_, abortsQuietly_orderRejected s, abortsQuietly_parseRejected s⟩
  · intro h
    exact buyNFT_of_invalid env nft s hs hq (normalizeOrder_nullish _ _ h)
  · intro t h1 h2
    unfold buyNFT
    simp [hg, normalizeOrder, h1, h2, parseRejected, notify, State.emit]
  · intro o h
    have e : unwrapOnce (.obj [("order", .obj [("order", o)])]) = .obj [("order", o)] := by
      simp [unwrapOnce, JsVal.get, List.lookup, JsVal.truthy]
    refine ⟨e, key _ (Or.inl ⟨fun t c => (by cases c), h⟩) ?_⟩
    rw [e]
    simp [JsVal.hasField, List.lookup]

theorem buyNFT_rejects_bad_order_witness :
    connectedState.signer.isSome = true ∧ connectedState.seaport.isSome = true ∧
    buyNFT happyBuyEnv (entryWithOrder (.obj [("order", .obj [("order", plainOrder)])]))
      connectedState = orderRejected connectedState :=
  ⟨rfl, rfl, ((buyNFT_rejects_bad_order happyBuyEnv
    (entryWithOrder (.obj [("order", .obj [("order", plainOrder)])])) connectedState
    rfl rfl).2.2.2.1 plainOrder rfl).2⟩

/-! ## List path: ownership check -/

/-- C7: with an active session, when `ownerOf(tokenId)` returns an address
that differs, compared in lower case, from the signer address, `listNFT` ends
with an alert and changes nothing but the log (cards and catalog untouched);
the log gains the address request, a notice, the `ownerOf` read and the alert,
and so no approval check or transaction, no order creation or signing, no
backend POST and no scheduled cache invalidation.  (With an empty token id the
call ends even earlier, with an alert only.) -/
theorem listNFT_rejects_non_owner (env : ListEnv) (tokenid : String) (priceWei : Int)
    (card : Nat) (s : State) (seller owner : String)
    (hs : s.signer.isSome = true) (hq : s.seaport.isSome = true)
    (ha : env.getAddress = .ok seller) (ho : env.ownerOf tokenid = .ok owner)
    (hne : toLowerCase owner ≠ toLowerCase seller) :
    (tokenid ≠ "" → listNFT env tokenid priceWei card s = notOwnerRejected tokenid s) ∧
    (tokenid = "" → listNFT env tokenid priceWei card s = s.emit (.alert "Token ID boşdur!")) ∧
    ∃ (added : List Effect) (msg : String),
      listNFT env tokenid priceWei card s
        = { s with log := s.log ++ added ++ [Effect.alert msg] } ∧
      ∀ e ∈ added ++ [Effect.alert msg],
        e.isListingStep = false ∧ e.isSdkCall = false ∧ e.isBackendCall = false := by
  have hg : (s.signer.isNone || s.seaport.isNone) = false := by
    cases hsig : s.signer <;> cases hsea : s.seaport <;> simp_all
  have h1 : tokenid ≠ "" → listNFT env tokenid priceWei card s = notOwnerRejected tokenid s := by
    intro ht
    unfold listNFT
    simp [hg, ht, ha, ho, hne, notOwnerRejected, notify, State.emit]
  have h2 : tokenid = "" →
      listNFT env tokenid priceWei card s = s.emit (.alert "Token ID boşdur!") := by
    intro ht
    unfold listNFT
    simp [hg, ht]
  refine ⟨h1, h2, ?_⟩
  by_cases ht : tokenid = ""
  · refine ⟨[], "Token ID boşdur!", by rw [h2 ht]; simp [State.emit], ?_⟩
    intro e he
    simp only [List.nil_append, List.mem_singleton] at he
    subst he
    exact ⟨rfl, rfl, rfl⟩
  · refine ⟨[Effect.getAddress, Effect.notify "Sahiblik yoxlanılır..." 3000,
      Effect.ownerOf tokenid], "Bu NFT sizə məxsus deyil!",
      by rw [h1 ht]; simp [notOwnerRejected], ?_⟩
    intro e he
    simp only [List.cons_append, List.nil_append, List.mem_cons, List.mem_singleton,
      List.not_mem_nil, or_false] at he
    rcases he with h | h | h | h <;> subst h <;> exact ⟨rfl, rfl, rfl⟩

theorem listNFT_rejects_non_owner_witness :
    listNFT foreignOwnerEnv "7" 1500000000000000000 0 connectedState
      = notOwnerRejected "7" connectedState :=
  (listNFT_rejects_non_owner foreignOwnerEnv "7" 1500000000000000000 0 connectedState
    "0x00000000000000000000000000000000000000AA" "0x00000000000000000000000000000000000000bb"
    rfl rfl rfl rfl (by decide)).1 (by decide)

/-! ## Ether amounts: the round trip -/

theorem digitChar_spec (k : Nat) (h : k < 10) :
    (Nat.digitChar k).isDigit = true ∧ digitValue (Nat.digitChar k) = k := by
  interval_cases k <;> exact ⟨rfl, rfl⟩

theorem decimalValue_append (a b : List Char) :
    decimalValue (a ++ b) = b.foldl (fun acc c => 10 * acc + digitValue c) (decimalValue a) := by
  simp [decimalValue, List.foldl_append]

theorem decimalValue_snoc (a : List Char) (c : Char) :
    decimalValue (a ++ [c]) = 10 * decimalValue a + digitValue c := by
  simp [decimalValue_append]

theorem decimalValue_zeros (k : Nat) : decimalValue (List.replicate k '0') = 0 := by
  induction k with
  | zero => rfl
  | succ k ih =>
    rw [List.replicate_succ', decimalValue_snoc, ih]
    rfl

theorem decimalValue_zeros_append (k : Nat) (cs : List Char) :
    decimalValue (List.replicate k '0' ++ cs) = decimalValue cs := by
  rw [decimalValue_append, decimalValue_zeros]
  rfl

theorem decimalValue_append_zeros (cs : List Char) (k : Nat) :
    decimalValue (cs ++ List.replicate k '0') = decimalValue cs * 10 ^ k := by
  induction k with
  | zero => simp
  | succ k ih =>
    rw [List.replicate_succ', ← List.append_assoc, decimalValue_snoc, ih, Nat.pow_succ]
    show 10 * (decimalValue cs * 10 ^ k) + 0 = _
    ring

theorem toDigitsCore_spec (fuel : Nat) : ∀ (n : Nat) (ds : List Char), n < fuel →
    ∃ cs, Nat.toDigitsCore 10 fuel n ds = cs ++ ds ∧ decimalValue cs = n ∧
      (∀ c ∈ cs, c.isDigit = true) ∧ cs ≠ [] := by
  induction fuel with
  | zero => intro n ds h; omega
  | succ fuel ih =>
    intro n ds h
    obtain ⟨hd, hv⟩ := digitChar_spec (n % 10) (Nat.mod_lt _ (by decide))
    by_cases h0 : n / 10 = 0
    · refine ⟨[Nat.digitChar (n % 10)], by simp [Nat.toDigitsCore, h0], ?_, ?_, by simp⟩
      · show 10 * 0 + digitValue (Nat.digitChar (n % 10)) = n
        rw [hv]; omega
      · intro c hc
        simp only [List.mem_singleton] at hc
        rw [hc]; exact hd
    · obtain ⟨cs, e, v, d, -⟩ := ih (n / 10) (Nat.digitChar (n % 10) :: ds) (by omega)
      refine ⟨cs ++ [Nat.digitChar (n % 10)], ?_, ?_, ?_, by simp⟩
      · simp [Nat.toDigitsCore, h0, e]
      · rw [decimalValue_snoc, v, hv]; omega
      · intro c hc
        rcases List.mem_append.1 hc with h | h
        · exact d c h
        · simp only [List.mem_singleton] at h
          rw [h]; exact hd

theorem toDigits_spec (n : Nat) :
    decimalValue (Nat.toDigits 10 n) = n ∧ (∀ c ∈ Nat.toDigits 10 n, c.isDigit = true) ∧
      Nat.toDigits 10 n ≠ [] := by
  obtain ⟨cs, e, v, d, ne⟩ := toDigitsCore_spec (n + 1) n [] (Nat.lt_succ_self n)
  have : Nat.toDigits 10 n = cs := by simpa [Nat.toDigits] using e
  rw [this]
  exact ⟨v, d, ne⟩

theorem toDigits_length_le (n : Nat) (h : n < 10 ^ 18) : (Nat.toDigits 10 n).length ≤ 18 :=
  Nat.toDigitsCore_length 10 (by decide) (n + 1) n 18 h (by decide)

theorem trim_spec (cs : List Char) :
    ∃ j, cs = trimTrailingZeros cs ++ List.replicate j '0' := by
  refine ⟨(cs.reverse.takeWhile (fun c => c == '0')).length, ?_⟩
  have hz : cs.reverse.takeWhile (fun c => c == '0')
      = List.replicate (cs.reverse.takeWhile (fun c => c == '0')).length '0' := by
    apply List.eq_replicate_of_mem
    intro c hc
    have := List.mem_takeWhile_imp hc
    simpa using this
  have hsplit := List.takeWhile_append_dropWhile (fun c => c == '0') cs.reverse
  have : cs = (cs.reverse.dropWhile (fun c => c == '0')).reverse
      ++ (cs.reverse.takeWhile (fun c => c == '0')).reverse := by
    rw [← List.reverse_append, hsplit, List.reverse_reverse]
  rw [hz, List.reverse_replicate] at this
  exact this

theorem trim_idempotent (cs : List Char) :
    trimTrailingZeros (trimTrailingZeros cs) = trimTrailingZeros cs := by
  unfold trimTrailingZeros
  rw [List.reverse_reverse, List.dropWhile_idempotent]

theorem mem_of_mem_trim (cs : List Char) (c : Char) (h : c ∈ trimTrailingZeros cs) : c ∈ cs := by
  obtain ⟨j, hj⟩ := trim_spec cs
  rw [hj]
  exact List.mem_append_left _ h

theorem ne_point_of_isDigit (c : Char) (h : c.isDigit = true) : (c != '.') = true := by
  by_cases e : c = '.'
  · subst e; exact absurd h (by decide)
  · simpa using e

theorem parseMagnitude_parts (W F : List Char) (hW : W ≠ [])
    (hWd : ∀ c ∈ W, c.isDigit = true) (hF : F ≠ []) (hFd : ∀ c ∈ F, c.isDigit = true)
    (hlen : (trimTrailingZeros F).length ≤ 18) :
    parseMagnitude (W ++ '.' :: F)
      = some (decimalValue W * 10 ^ 18 + decimalValue (trimTrailingZeros F ++
          List.replicate (18 - (trimTrailingZeros F).length) '0')) := by
  have h1 : (W ++ '.' :: F = []) = False := by simp
  have h2 : (W ++ '.' :: F).all (fun c => c.isDigit || c == '.') = true := by
    rw [List.all_eq_true]
    intro c hc
    rcases List.mem_append.1 hc with h | h
    · simp [hWd c h]
    · rcases List.mem_cons.1 h with h | h
      · simp [h]
      · simp [hFd c h]
  have h3 : (W ++ '.' :: F = ['.']) = False := by
    cases W with
    | nil => exact absurd rfl hW
    | cons c W => simp
  have hWp : ∀ c ∈ W, (fun c => c != '.') c = true := fun c hc => ne_point_of_isDigit c (hWd c hc)
  have h4 : (W ++ '.' :: F).takeWhile (fun c => c != '.') = W := by
    rw [List.takeWhile_append_of_pos hWp]
    simp [List.takeWhile]
  have h5 : ((W ++ '.' :: F).dropWhile (fun c => c != '.')).tail = F := by
    rw [List.dropWhile_append_of_pos hWp]
    simp [List.dropWhile]
  have h6 : F.contains '.' = false := by
    rw [Bool.eq_false_iff]
    intro hc
    have hm : '.' ∈ F := by simpa using hc
    exact absurd (hFd _ hm) (by decide)
  have h7 : ¬ (trimTrailingZeros F).length > 18 := by omega
  unfold parseMagnitude
  simp only [h1, h2, h3, h4, h5, h6, hF, h7, decide_False, Bool.not_true, Bool.or_self,
    Bool.false_eq_true, if_false]

theorem formatMagnitude_parts (v : Nat) :
    ∃ W F : List Char, formatMagnitude v = W ++ '.' :: F ∧ W ≠ [] ∧
      (∀ c ∈ W, c.isDigit = true) ∧ F ≠ [] ∧ (∀ c ∈ F, c.isDigit = true) ∧
      decimalValue W = v / 10 ^ 18 ∧ (trimTrailingZeros F).length ≤ 18 ∧
      decimalValue (trimTrailingZeros F ++
        List.replicate (18 - (trimTrailingZeros F).length) '0') = v % 10 ^ 18 := by
  obtain ⟨wv, wd, wne⟩ := toDigits_spec (v / 10 ^ 18)
  obtain ⟨fv, fd, -⟩ := toDigits_spec (v % 10 ^ 18)
  have flen := toDigits_length_le (v % 10 ^ 18) (Nat.mod_lt _ (by norm_num))
  generalize hdig : Nat.toDigits 10 (v % 10 ^ 18) = digits at fv fd flen
  generalize hpad : List.replicate (18 - digits.length) '0' ++ digits = padded
  have plen : padded.length = 18 := by
    rw [← hpad, List.length_append, List.length_replicate]; omega
  have pd : ∀ c ∈ padded, c.isDigit = true := by
    intro c hc
    rw [← hpad] at hc
    rcases List.mem_append.1 hc with h | h
    · rw [(List.mem_replicate.1 h).2]; rfl
    · exact fd c h
  have pv : decimalValue padded = v % 10 ^ 18 := by
    rw [← hpad, decimalValue_zeros_append, fv]
  obtain ⟨j, hj⟩ := trim_spec padded
  have tlen : (trimTrailingZeros padded).length + j = 18 := by
    have := congrArg List.length hj
    rw [List.length_append, List.length_replicate, plen] at this
    omega
  have hF : formatMagnitude v = Nat.toDigits 10 (v / 10 ^ 18) ++ '.' ::
      (if trimTrailingZeros padded = [] then ['0'] else trimTrailingZeros padded) := by
    unfold formatMagnitude
    simp only [hdig, hpad]
  have ht : trimTrailingZeros
      (if trimTrailingZeros padded = [] then ['0'] else trimTrailingZeros padded)
        = trimTrailingZeros padded := by
    by_cases he : trimTrailingZeros padded = []
    · rw [if_pos he, he]; rfl
    · rw [if_neg he, trim_idempotent]
  refine ⟨_, _, hF, wne, wd, ?_, ?_, wv, ?_, ?_⟩
  · by_cases he : trimTrailingZeros padded = []
    · rw [if_pos he]; simp
    · rw [if_neg he]; exact he
  · intro c hc
    by_cases he : trimTrailingZeros padded = []
    · rw [if_pos he] at hc
      simp only [List.mem_singleton] at hc
      rw [hc]; rfl
    · rw [if_neg he] at hc
      exact pd c (mem_of_mem_trim padded c hc)
  · rw [ht]; omega
  · rw [ht]
    have e : 18 - (trimTrailingZeros padded).length = j := by omega
    rw [e, ← hj, pv]

theorem parseMagnitude_formatMagnitude (v : Nat) :
    parseMagnitude (formatMagnitude v) = some v := by
  obtain ⟨W, F, e, hW, hWd, hF, hFd, wv, hlen, fv⟩ := formatMagnitude_parts v
  rw [e, parseMagnitude_parts W F hW hWd hF hFd hlen, wv, fv, Nat.div_add_mod']

theorem formatMagnitude_head (v : Nat) :
    ∃ c rest, formatMagnitude v = c :: rest ∧ c ≠ '-' := by
  obtain ⟨W, F, e, hW, hWd, -⟩ := formatMagnitude_parts v
  cases W with
  | nil => exact absurd rfl hW
  | cons c W =>
    refine ⟨c, W ++ '.' :: F, by rw [e]; rfl, ?_⟩
    intro hc
    have := hWd c (by simp)
    rw [hc] at this
    exact absurd this (by decide)

theorem parseEther_formatEther (wei : Int) : parseEther (formatEther wei) = some wei := by
  obtain ⟨c, rest, e, hc⟩ := formatMagnitude_head wei.natAbs
  have hm := parseMagnitude_formatMagnitude wei.natAbs
  by_cases hneg : wei < 0
  · have hd : (formatEther wei).data = '-' :: formatMagnitude wei.natAbs := by
      simp [formatEther, hneg]
    unfold parseEther
    rw [hd]
    have hv : -(Int.ofNat wei.natAbs) = wei := by
      show -(wei.natAbs : Int) = wei
      omega
    simp only [hm, hv]
  · have hd : (formatEther wei).data = c :: rest := by
      simp [formatEther, hneg, e]
    have hm2 : parseMagnitude (c :: rest) = some wei.natAbs := by rw [← e]; exact hm
    unfold parseEther
    rw [hd]
    split
    · rename_i value heq
      simp only [List.cons.injEq] at heq
      exact absurd heq.1 hc
    · have hv : Int.ofNat wei.natAbs = wei := by
        show (wei.natAbs : Int) = wei
        omega
      simp only [hm2, hv]

/-- C8: for every price string that `parseEther` accepts, the price string
sent to the backend, `formatEther (parseEther s)`, parses back to the same
amount in the smallest unit; for "1.5" the amount is 1500000000000000000 and
the string sent is "1.5". -/
theorem price_round_trip (s : String) (wei : Int) (h : parseEther s = some wei) :
    parseEther (formatEther wei) = parseEther s ∧
    parseEther "1.5" = some 1500000000000000000 ∧
    formatEther 1500000000000000000 = "1.5" := by
  refine ⟨?_, by decide, by decide⟩
  rw [h]
  exact parseEther_formatEther wei

theorem price_round_trip_witness :
    parseEther "1.5" = some 1500000000000000000 ∧
    (parseEther (formatEther 1500000000000000000) = parseEther "1.5" ∧
      parseEther "1.5" = some 1500000000000000000 ∧
      formatEther 1500000000000000000 = "1.5") :=
  ⟨by decide, price_round_trip "1.5" 1500000000000000000 (by decide)⟩

end Kamoaze
